import Mathlib

/-!
terraform-kubeadm: remote actions (`internal/ssh`) and kubeadm configurations (`pkg/common`)

A shallow embedding of `internal/ssh/commands.go`, `internal/ssh/kubernetes.go` and
`pkg/common/kubeadm.go`.

* A Go `Action` is a function from the configuration and the state of the world to a
  result and a new state of the world.
* Go closures capture *variables*, not values.  The variables a closure captures live in
  `World.vars`; building a closure allocates them, applying it reads and writes them.
* What the transport does (whether a command starts, what it prints, how it ends, whether an
  upload succeeds) is not decided by the program: it is given by the functions of
  `Communicator`, which see the whole history of the interaction.
* A Go string is a Lean `String` (text that is valid UTF-8); a Go pointer is an `Option`,
  `none` being nil, and reading a field through nil is a panic.
-/

namespace Kubeadm

/-! ## The world outside the program -/

/-- What the program did to the transport and to the live output sink, in order. -/
inductive Event where
  /-- `cfg.Comm.Start(cmd)` was called with `cmd.Command = command`. -/
  | start (command : String)
  /-- A line was given to the live exec-output sink. -/
  | output (line : String)
  /-- The bytes `content` were sent to the remote file `path`. -/
  | upload (content : String) (path : String)
  /-- The local file `localPath` was sent to the remote file `path`. -/
  | uploadFile (localPath : String) (path : String)
  /-- The deletion of the remote file `path` was attempted. -/
  | delete (path : String)
  /-- A line was given to the user-output sink `cfg.UserOutput`. -/
  | message (line : String)
  deriving DecidableEq, Repr

/-- The value returned by `cmd.Wait()`, of Go type `error`. -/
inductive WaitResult where
  /-- A `nil` error. -/
  | nil
  /-- A `*remote.ExitError` with its `Command`, `ExitStatus` and wrapped `Err` fields. -/
  | exitError (Command : String) (ExitStatus : Int) (Err : Option String)
  /-- An error value of any other dynamic type. -/
  | other (msg : String)
  deriving DecidableEq, Repr

/-- A command that the transport has started: the lines it prints, in the order in which they
reach the output sink, and what `Wait` returns for it. -/
structure Proc where
  lines : List String
  wait : WaitResult
  deriving DecidableEq, Repr

/-- The behaviour of the transport `cfg.Comm`.  Every function receives the history so far, so
that two attempts of one command may end differently. An error is given by its text. -/
structure Communicator where
  Start : List Event → String → Except String Proc
  Upload : List Event → String → String → Option String
  UploadFile : List Event → String → String → Option String
  Delete : List Event → String → Option String

/-- The fields of `Config` that the embedded code reads.  `ExecOutput` is what
`cfg.GetExecOutput()` returns: `none` is the live sink, `some b` is a writer that appends
to the buffer held in variable `b`. -/
structure Config where
  UseSudo : Bool
  Comm : Communicator
  ExecOutput : Option Nat

/-- The state of the world: the Go variables captured by closures and the buffers (`vars`,
of which the first `nvars` are allocated), the history of the interaction with the remote
machine (`trace`), and the temporary names that the generator will give (`temps`, of
which `ntemps` have been taken). -/
structure World where
  vars : Nat → String
  nvars : Nat
  trace : List Event
  temps : Nat → Except String String
  ntemps : Nat

namespace World

/-- Assignment to the variable `i`. -/
def setVar (w : World) (i : Nat) (v : String) : World :=
  { w with vars := fun j => if j = i then v else w.vars j }

/-- A new variable holding `v`; returns its address. -/
def newVar (w : World) (v : String) : Nat × World :=
  (w.nvars, { w with vars := fun j => if j = w.nvars then v else w.vars j, nvars := w.nvars + 1 })

/-- The history grows by one event. -/
def log (w : World) (e : Event) : World :=
  { w with trace := w.trace ++ [e] }

end World

/-! ## Actions and checkers -/

/-- What applying an action comes to: Go `nil` (success), an `ActionError`, or a run-time
panic that unwinds the stack. -/
inductive Result where
  | nil
  | error (msg : String)
  | panic
  deriving DecidableEq, Repr

/-- An action, applied to a configuration in a state of the world. -/
abbrev Action := Config → World → Result × World

/-- What a check comes to: the Go pair `(bool, error)`, or a run-time panic. -/
inductive CheckResult where
  | value (ok : Bool) (err : Option String)
  | panic
  deriving DecidableEq, Repr

/-- A checker, evaluated on a configuration in a state of the world. -/
abbrev Checker := Config → World → CheckResult × World

/-- The code of the program's environment that is not part of the embedded sources and that
the specification does not describe: how `%q` writes a character that is not printable
ASCII (Go's `strconv` decides it from its Unicode tables), and the two remote
file-existence checkers of `files.go`. -/
structure Deps where
  escapeRune : Char → String
  CheckFileExists : String → Checker
  CheckFileExistsOnce : String → Checker

/-- The Go `nil` action: success, nothing done. -/
def nilAction : Action := fun _ w => (Result.nil, w)

/-- Modelled from the spec: `ActionError` (the engine of `actions.go` is missing), the Error
variant, which carries a message and is terminal. -/
def ActionError (msg : String) : Action := fun _ w => (Result.error msg, w)

/-- Modelled from the spec: `IsError`, which tells the Error variant from all the others. -/
def IsError : Result → Bool
  | Result.error _ => true
  | _ => false

/-- Modelled from the spec: `ActionFunc`, the Deferred variant: the function is called with
the configuration and the action it returns is applied in its turn.  A function that
panics (`none`) gives no action. -/
def ActionFunc (f : Config → World → Option Action × World) : Action := fun cfg w =>
  match f cfg w with
  | (none, w1) => (Result.panic, w1)
  | (some a, w1) => a cfg w1

/-- Modelled from the spec: `ActionList`, the List variant: the elements are applied from
left to right, the first one that does not succeed stops the list and is its result, and a
list whose elements all succeed is a success. -/
def ActionList : List Action → Action
  | [] => fun _ w => (Result.nil, w)
  | a :: rest => fun cfg w =>
    match a cfg w with
    | (Result.nil, w1) => ActionList rest cfg w1
    | (r, w1) => (r, w1)

/-- Modelled from the spec: `DoTry`, which applies the action and returns success whatever
the outcome (a panic is not an outcome: it goes on unwinding). -/
def DoTry (a : Action) : Action := fun cfg w =>
  match a cfg w with
  | (Result.panic, w1) => (Result.panic, w1)
  | (_, w1) => (Result.nil, w1)

/-- Modelled from the spec: `DoWithCleanup(cleanup, action)`, whose FIRST argument is the
cleanup and whose second is the main action.  The main action is applied, then the
cleanup unconditionally; the result is that of the main action, unless it succeeded, in
which case it is that of the cleanup. -/
def DoWithCleanup (cleanup : Action) (action : Action) : Action := fun cfg w =>
  match action cfg w with
  | (Result.nil, w1) => cleanup cfg w1
  | (r, w1) => (r, (cleanup cfg w1).2)

/-- The attempts of `DoRetry` after which `n` more are allowed. -/
def retryLoop (a : Action) : Nat → Action
  | 0 => a
  | n + 1 => fun cfg w =>
    match a cfg w with
    | (Result.error _, w1) => retryLoop a n cfg w1
    | (r, w1) => (r, w1)

/-- Modelled from the spec: `DoRetry(Retry{Times: times}, action)`: the action is applied
until it succeeds, `times` times at most (once when `times` is 0), and the result is that of
the last attempt.  The wait between two attempts is not modelled. -/
def DoRetry (times : Nat) (a : Action) : Action := retryLoop a (times - 1)

/-- Modelled from the spec: `DoIfElse`: an error of the checker is the result, without
either branch; otherwise the first branch is applied on true and the second on false. -/
def DoIfElse (c : Checker) (thenAction : Action) (elseAction : Action) : Action := fun cfg w =>
  match c cfg w with
  | (CheckResult.panic, w1) => (Result.panic, w1)
  | (CheckResult.value _ (some err), w1) => (Result.error err, w1)
  | (CheckResult.value true none, w1) => thenAction cfg w1
  | (CheckResult.value false none, w1) => elseAction cfg w1

/-- One line given to the sink returned by `cfg.GetExecOutput()`. -/
def Output (sink : Option Nat) (line : String) (w : World) : World :=
  match sink with
  | none => w.log (Event.output line)
  | some b => w.setVar b (w.vars b ++ line ++ "\n")

/-- Modelled from the spec: `DoSendingExecOutputToWriter(&buf, action)` applies the action
with the exec output going into the buffer, not to the live sink; each line is followed by
a newline. -/
def DoSendingExecOutputToWriter (buf : Nat) (a : Action) : Action := fun cfg w =>
  a { cfg with ExecOutput := some buf } w

/-! ## Files (`files.go` is missing) -/

/-- Modelled from the spec: `GetTempFilename`, which returns a new remote path or an error. -/
def GetTempFilename (w : World) : Except String String × World :=
  (w.temps w.ntemps, { w with ntemps := w.ntemps + 1 })

/-- Modelled from the spec: `doRealUploadFile(contents, path)`, the upload of the contents of
a reader to a remote path; it fails when the transport does. -/
def doRealUploadFile (contents : String) (path : String) : Action := fun cfg w =>
  match cfg.Comm.Upload w.trace contents path with
  | none => (Result.nil, w.log (Event.upload contents path))
  | some err => (Result.error err, w.log (Event.upload contents path))

/-- Modelled from the spec: `DoUploadBytesToFile(contents, path)`, the upload of literal bytes. -/
def DoUploadBytesToFile (contents : String) (path : String) : Action :=
  doRealUploadFile contents path

/-- Modelled from the spec: `DoUploadFileToFile(local, remote)`, the upload of a local file. -/
def DoUploadFileToFile (localPath : String) (path : String) : Action := fun cfg w =>
  match cfg.Comm.UploadFile w.trace localPath path with
  | none => (Result.nil, w.log (Event.uploadFile localPath path))
  | some err => (Result.error err, w.log (Event.uploadFile localPath path))

/-- Modelled from the spec: `DoDeleteFile(path)`, the deletion of a remote file. -/
def DoDeleteFile (path : String) : Action := fun cfg w =>
  match cfg.Comm.Delete w.trace path with
  | none => (Result.nil, w.log (Event.delete path))
  | some err => (Result.error err, w.log (Event.delete path))

/-! ## Go library functions -/

/-- Go `strings.Contains` on character lists: some suffix of the text starts with `sub`. -/
def containsChars (sub : List Char) : List Char → Bool
  | [] => sub.isEmpty
  | c :: cs => sub.isPrefixOf (c :: cs) || containsChars sub cs

/-- Go `strings.Contains(s, substr)`. -/
def Contains (s : String) (substr : String) : Bool :=
  containsChars substr.data s.data

/-- Go `unicode.IsSpace`: the characters with the Unicode White Space property. -/
def isSpace (c : Char) : Bool :=
  let n := c.toNat
  (0x09 ≤ n && n ≤ 0x0D) || n = 0x20 || n = 0x85 || n = 0xA0 || n = 0x1680 ||
  (0x2000 ≤ n && n ≤ 0x200A) || n = 0x2028 || n = 0x2029 || n = 0x202F || n = 0x205F ||
  n = 0x3000

/-- Go `strings.TrimSpace`: the text without its leading and trailing white space. -/
def TrimSpace (s : String) : String :=
  String.mk ((s.data.dropWhile isSpace).reverse.dropWhile isSpace).reverse

/-- Go `path.IsAbs`: the path starts with a slash. -/
def IsAbs (path : String) : Bool :=
  match path.data with
  | c :: _ => c = '/'
  | [] => false

/-- Go `strings.Join`. -/
def Join (elems : List String) (sep : String) : String :=
  sep.intercalate elems

/-- One character inside `%q`: the double quote and the backslash get a backslash, a
printable ASCII character stands for itself, and every other character is written as
`strconv` decides. -/
def quoteRune (deps : Deps) (r : Char) : String :=
  if r = '"' ∨ r = '\\' then "\\" ++ String.singleton r
  else if 0x20 ≤ r.toNat ∧ r.toNat ≤ 0x7E then String.singleton r
  else deps.escapeRune r

/-- The verb `%q` of `fmt.Sprintf` on a string (`strconv.Quote`): the text between double
quotes, with its characters escaped. -/
def fmtQ (deps : Deps) (s : String) : String :=
  "\"" ++ String.join (s.data.map (quoteRune deps)) ++ "\""

/-- The verb `%d` of `fmt.Sprintf` on an `int`. -/
def fmtD (n : Int) : String := toString n

/-! ## `commands.go` -/

/-- The arguments for "sudo". -/
def sudoArgs : String := "--non-interactive"

/-- Lines 50-90 of `DoExec`: the command line is handed to the transport, its output goes
line by line to the exec-output sink, and the value returned by `Wait` decides the result.
When that value is not a `*remote.ExitError`, the unchecked type assertion leaves
`cmdError` nil and reading `cmdError.ExitStatus` panics. -/
def runCommand (deps : Deps) (command : String) (cfg : Config) (w : World) :
    Option Action × World :=
  match cfg.Comm.Start w.trace command with
  | Except.error err =>
    (some (ActionError ("Error executing command " ++ fmtQ deps command ++ ": " ++ err)),
      w.log (Event.start command))
  | Except.ok proc =>
    let w3 := proc.lines.foldl (fun acc line => Output cfg.ExecOutput line acc)
      (w.log (Event.start command))
    match proc.wait with
    | WaitResult.nil => (some nilAction, w3)
    | WaitResult.exitError cmdCommand exitStatus _ =>
      if exitStatus ≠ 0 then
        (some (ActionError ("Command " ++ fmtQ deps cmdCommand ++
          " exited with non-zero exit status: " ++ fmtD exitStatus)), w3)
      else
        (some nilAction, w3)
    | WaitResult.other _ => (none, w3)

/-- The body of the closure that `DoExec` returns; `commandVar` is the address of the
variable `command` that the closure captured, which the body reads and ASSIGNS. -/
def DoExecBody (deps : Deps) (commandVar : Nat) (cfg : Config) (w : World) :
    Option Action × World :=
  if (w.vars commandVar).length = 0 then
    (some nilAction, w)
  else
    let w1 := if cfg.UseSudo then
        w.setVar commandVar ("sudo " ++ sudoArgs ++ " " ++ w.vars commandVar)
      else w
    let w2 := w1.setVar commandVar (w1.vars commandVar ++ " 2>&1")
    runCommand deps (w2.vars commandVar) cfg w2

/-- DoExec is a runner for remote Commands.  Building the action allocates the variable
`command` of the closure. -/
def DoExec (deps : Deps) (command : String) (w : World) : Action × World :=
  let (commandVar, w1) := w.newVar command
  (ActionFunc (DoExecBody deps commandVar), w1)

/-- DoExecScript is a runner for a script (with some random path in /tmp).  The temporary
path is taken when the action is built. -/
def DoExecScript (deps : Deps) (contents : String) (w : World) : Action × World :=
  match GetTempFilename w with
  | (Except.error err, w1) => (ActionError ("Could not create temporary file: " ++ err), w1)
  | (Except.ok path, w1) =>
    let cleanup := ActionList [DoTry (DoDeleteFile path)]
    let upload := doRealUploadFile contents path
    let (exec, w2) := DoExec deps ("sh " ++ path) w1
    (DoWithCleanup cleanup (ActionList [upload, exec]), w2)

/-- The marker that `CheckExec` makes the remote shell print when the command succeeds. -/
def success : String := "CONDITION_SUCCEEDED"

/-- The marker that `CheckExec` makes the remote shell print when the command fails. -/
def failure : String := "CONDITION_FAILED"

/-- The command line that `CheckExec(cmd)` runs. -/
def checkExecCommand (cmd : String) : String :=
  cmd ++ " && echo '" ++ success ++ "' || echo '" ++ failure ++ "'"

/-- CheckExec checks if bash command succeedes or not. -/
def CheckExec (deps : Deps) (cmd : String) : Checker := fun cfg w =>
  let command := checkExecCommand cmd
  let (buf, w1) := w.newVar ""
  let (exec, w2) := DoExec deps command w1
  match DoSendingExecOutputToWriter buf exec cfg w2 with
  | (Result.error msg, w3) => (CheckResult.value false (some msg), w3)
  | (Result.panic, w3) => (CheckResult.panic, w3)
  | (Result.nil, w3) =>
    let s := w3.vars buf
    if Contains s success && !Contains s failure then
      (CheckResult.value true none, w3)
    else
      (CheckResult.value false none, w3)

/-- The command line that `CheckBinaryExists(cmd)` runs. -/
def binaryExistsCommand (cmd : String) : String :=
  "command -v '" ++ cmd ++ "'"

/-- CheckBinaryExists checks that a binary exists in the path. -/
def CheckBinaryExists (deps : Deps) (cmd : String) : Checker := fun cfg w =>
  let command := binaryExistsCommand cmd
  let (buf, w1) := w.newVar ""
  let (exec, w2) := DoExec deps command w1
  match DoSendingExecOutputToWriter buf exec cfg w2 with
  | (Result.error msg, w3) => (CheckResult.value false (some msg), w3)
  | (Result.panic, w3) => (CheckResult.panic, w3)
  | (Result.nil, w3) =>
    let s := TrimSpace (w3.vars buf)
    if s = "" then
      (CheckResult.value false none, w3)
    else if s = cmd then
      (CheckResult.value true none, w3)
    else if IsAbs s then
      deps.CheckFileExists s cfg w3
    else
      (CheckResult.value false none, w3)

/-! ## `kubernetes.go` -/

/-- DefAdminKubeconfig is the default "admin.conf" file path. -/
def DefAdminKubeconfig : String := "/etc/kubernetes/admin.conf"

/-- Manifest represents a manifest, that can be a local file name, a remote URL or inlined. -/
structure Manifest where
  Path : String
  URL : String
  Inline : String
  deriving DecidableEq, Repr

namespace World

/-- A new variable of type `Manifest`: its three fields are three consecutive variables. -/
def newManifest (w : World) (m : Manifest) : Nat × World :=
  let (v, w1) := w.newVar m.Path
  let (_, w2) := w1.newVar m.URL
  let (_, w3) := w2.newVar m.Inline
  (v, w3)

/-- Assignment to the `Manifest` variable at `v`. -/
def setManifest (w : World) (v : Nat) (m : Manifest) : World :=
  ((w.setVar v m.Path).setVar (v + 1) m.URL).setVar (v + 2) m.Inline

/-- The value of the `Manifest` variable at `v`. -/
def manifest (w : World) (v : Nat) : Manifest :=
  { Path := w.vars v, URL := w.vars (v + 1), Inline := w.vars (v + 2) }

end World

/-- The body of the closure in the else-branch of `DoRemoteKubectl`: the kubeconfig is
uploaded to a temporary remote file and kubectl runs with it.  `DoWithCleanup` is called
with the upload-then-kubectl list FIRST and the Try-wrapped deletion second. -/
def remoteKubectlFallback (deps : Deps) (kubectl : String) (kubeconfig : String)
    (argsStr : String) (_cfg : Config) (w : World) : Option Action × World :=
  if kubeconfig = "" then
    (some (ActionError "no kubeconfig provided, and no remote admin.conf found"), w)
  else
    match GetTempFilename w with
    | (Except.error err, w1) =>
      (some (ActionError ("Could not create temporary file: " ++ err)), w1)
    | (Except.ok remoteKubeconfig, w1) =>
      let upload := DoUploadFileToFile kubeconfig remoteKubeconfig
      let (exec, w2) :=
        DoExec deps (kubectl ++ " --kubeconfig=" ++ remoteKubeconfig ++ " " ++ argsStr) w1
      (some (DoRetry 3
        (DoWithCleanup (ActionList [upload, exec]) (DoTry (DoDeleteFile remoteKubeconfig)))), w2)

/-- DoRemoteKubectl runs a remote kubectl command in a remote machine; it takes care about
uploading a valid kubeconfig file if not present in the remote machine. -/
def DoRemoteKubectl (deps : Deps) (kubectl : String) (kubeconfig : String)
    (args : List String) (w : World) : Action × World :=
  let argsStr := Join args " "
  let check := deps.CheckFileExistsOnce DefAdminKubeconfig
  let (exec, w1) :=
    DoExec deps ("kubectl --kubeconfig=" ++ DefAdminKubeconfig ++ " " ++ argsStr) w
  (DoIfElse check
    (ActionList [exec])
    (ActionList [ActionFunc (remoteKubectlFallback deps kubectl kubeconfig argsStr)]), w1)

/-- The closure built for an inline manifest.  It reads the loop variable `manifest`, at
address `manifestVar`, when it is APPLIED. -/
def applyInline (deps : Deps) (kubectl : String) (kubeconfig : String) (manifestVar : Nat)
    (_cfg : Config) (w : World) : Option Action × World :=
  match GetTempFilename w with
  | (Except.error err, w1) =>
    (some (ActionError ("Could not create temporary file: " ++ err)), w1)
  | (Except.ok remoteManifest, w1) =>
    let upload := DoUploadBytesToFile (w1.manifest manifestVar).Inline remoteManifest
    let (kube, w2) := DoRemoteKubectl deps kubectl kubeconfig ["apply", "-f", remoteManifest] w1
    (some (DoWithCleanup (ActionList [upload, kube])
      (ActionList [DoTry (DoDeleteFile remoteManifest)])), w2)

/-- The closure built for a manifest in a local file.  It reads the loop variable
`manifest`, at address `manifestVar`, when it is APPLIED. -/
def applyPath (deps : Deps) (kubectl : String) (kubeconfig : String) (manifestVar : Nat)
    (_cfg : Config) (w : World) : Option Action × World :=
  match GetTempFilename w with
  | (Except.error err, w1) =>
    (some (ActionError ("Could not create temporary file: " ++ err)), w1)
  | (Except.ok remoteManifest, w1) =>
    let upload := DoUploadFileToFile (w1.manifest manifestVar).Path remoteManifest
    let (kube, w2) := DoRemoteKubectl deps kubectl kubeconfig ["apply", "-f", remoteManifest] w1
    (some (DoWithCleanup (ActionList [upload, kube])
      (ActionList [DoTry (DoDeleteFile remoteManifest)])), w2)

/-- The loop of `DoRemoteKubectlApply` over the manifests that remain; `actions` is the list
built so far.  Every iteration assigns the next element to the ONE loop variable
`manifest` (the program is compiled with a Go older than 1.22, where a `for ... range`
loop has a single variable for all its iterations). -/
def applyLoop (deps : Deps) (kubectl : String) (kubeconfig : String) (manifestVar : Nat) :
    List Manifest → List Action → World → List Action × World
  | [], actions, w => (actions, w)
  | m :: rest, actions, w =>
    let w1 := w.setManifest manifestVar m
    if (w1.manifest manifestVar).Inline ≠ "" then
      applyLoop deps kubectl kubeconfig manifestVar rest
        (actions ++ [ActionFunc (applyInline deps kubectl kubeconfig manifestVar)]) w1
    else if (w1.manifest manifestVar).Path ≠ "" then
      applyLoop deps kubectl kubeconfig manifestVar rest
        (actions ++ [ActionFunc (applyPath deps kubectl kubeconfig manifestVar)]) w1
    else if (w1.manifest manifestVar).URL ≠ "" then
      let (kube, w2) := DoRemoteKubectl deps kubectl kubeconfig
        ["apply", "-f", (w1.manifest manifestVar).URL] w1
      applyLoop deps kubectl kubeconfig manifestVar rest (actions ++ [kube]) w2
    else
      applyLoop deps kubectl kubeconfig manifestVar rest actions w1

/-- DoRemoteKubectlApply applies some manifests with a remote kubectl; manifests can be 1) a
local file 2) a URL 3) in a string.  The value returned is the `ActionList` built, as the
list of its actions. -/
def DoRemoteKubectlApply (deps : Deps) (kubectl : String) (kubeconfig : String)
    (manifests : List Manifest) (w : World) : List Action × World :=
  let (manifestVar, w1) := w.newManifest { Path := "", URL := "", Inline := "" }
  applyLoop deps kubectl kubeconfig manifestVar manifests [] w1

/-! ## `kubernetes.go`: manifests -/

/-- What the code asks of the local machine and of the Go library: whether
`url.ParseRequestURI` returns an error for a text (`some` is the error), and which
local files exist. -/
structure Host where
  ParseRequestURI : String → Option String
  FileExists : String → Bool

/-- The function isValidURL tests a string to determine if it is a url or not. -/
def isValidURL (host : Host) (toTest : String) : Bool :=
  match host.ParseRequestURI toTest with
  | some _ => false
  | none => true

/-- Modelled from the spec: `LocalFileExists` (of `files.go`, missing), a direct existence
check by path on the local filesystem. -/
def LocalFileExists (host : Host) (path : String) : Bool :=
  host.FileExists path

/-- NewManifest creates a new manifest. -/
def NewManifest (host : Host) (m : String) : Manifest :=
  if isValidURL host m then
    { Path := "", URL := m, Inline := "" }
  else if LocalFileExists host m then
    { Path := m, URL := "", Inline := "" }
  else
    { Path := "", URL := "", Inline := m }

namespace Manifest

/-- IsEmpty returns True iff the manifest does not have a URL, manifest or inline. -/
def IsEmpty (m : Manifest) : Bool :=
  if m.Inline = "" ∧ m.Path = "" ∧ m.URL = "" then true else false

/-- ReplaceConfig performs replacements in all the fields in the manifest (so its comment
says).  The receiver is a pointer: the result is the error returned and the manifest
as the call leaves it.  `ReplaceInTemplate` (missing from the sources) is a parameter,
and so is the type of the configuration map. -/
def ReplaceConfig {κ : Type} (ReplaceInTemplate : String → κ → Except String String)
    (m : Manifest) (config : κ) : Option String × Manifest :=
  if m.Inline ≠ "" then
    match ReplaceInTemplate m.Inline config with
    | Except.error err => (some err, m)
    | Except.ok replaced => (none, { m with Inline := replaced })
  else if m.Path ≠ "" then
    match ReplaceInTemplate m.Path config with
    | Except.error err => (some err, m)
    | Except.ok replaced => (none, { m with Path := replaced })
  else if m.URL ≠ "" then
    match ReplaceInTemplate m.URL config with
    | Except.error err => (some err, m)
    | Except.ok replaced => (none, { m with URL := replaced })
  else
    (none, m)

/-- The number of fields of the manifest that are populated (non-empty). -/
def populated (m : Manifest) : Nat :=
  (if m.Path = "" then 0 else 1) + (if m.URL = "" then 0 else 1) +
    (if m.Inline = "" then 0 else 1)

end Manifest

/-- A local machine without files, on which every text but those that start with `http` is
refused as a URL. -/
def hostBare : Host :=
  { ParseRequestURI := fun s => if "http".isPrefixOf s then none else some "invalid URI",
    FileExists := fun _ => false }

/-- A template replacement that knows one variable, `ns`, with the value given as the
configuration: it is defined on the two texts `{{.ns}}.yml` and `kind: {{.ns}}` and
leaves every other text as it is. -/
def replaceNs (text : String) (config : String) : Except String String :=
  if text = "\x7b\x7b.ns\x7d\x7d.yml" then Except.ok (config ++ ".yml")
  else if text = "kind: \x7b\x7b.ns\x7d\x7d" then Except.ok ("kind: " ++ config)
  else Except.ok text

/-! ## `commands.go`: local commands -/

/-- The final status of a local command, as the process runner `go-cmd` reports it: the
exit code and the Go error, which is nil (`none`) when the runner has none to report. -/
structure Status where
  Exit : Int
  Error : Option String
  deriving DecidableEq, Repr

/-- A local command that has run: the lines it printed, in the order in which they reach the
output sink, each marked `true` when it comes from the standard error, and its status. -/
structure LocalProc where
  lines : List (Bool × String)
  status : Status
  deriving DecidableEq, Repr

/-- The local process runner: what running `command` with `args` comes to, given the history
so far. -/
abbrev Runner := List Event → String → List String → LocalProc

/-- DoLocalExec executes a local command.  In the failure branch the code calls
`status.Error.Error()`: on a nil error that call panics. -/
def DoLocalExec (deps : Deps) (run : Runner) (command : String) (args : List String) :
    Action :=
  ActionFunc (fun cfg w =>
    let fullCmd := command ++ " " ++ Join args " "
    let w1 := w.log (Event.message ("Running local command " ++ fmtQ deps fullCmd ++ "..."))
    let proc := run w1.trace command args
    let w2 := proc.lines.foldl
      (fun acc l => Output cfg.ExecOutput (if l.1 then "ERROR: " ++ l.2 else l.2) acc) w1
    if proc.status.Exit ≠ 0 then
      match proc.status.Error with
      | none => (none, w2)
      | some err =>
        (some (ActionError err),
          w2.log (Event.message ("Error waiting for " ++ fmtQ deps command ++ ": " ++ err ++
            " [" ++ fmtD proc.status.Exit ++ "]")))
    else
      (some nilAction, w2))

/-- A process runner on which every command prints nothing and ends with `status`. -/
def runnerOf (status : Status) : Runner :=
  fun _ _ _ => { lines := [], status := status }

/-- The history at the moment `DoLocalExec` starts the process: the line that announces the
command has been given to the user. -/
def announced (deps : Deps) (command : String) (args : List String) (w : World) :
    List Event :=
  w.trace ++ [Event.message ("Running local command " ++
    fmtQ deps (command ++ " " ++ Join args " ") ++ "...")]

/-! ## Temporary names (`files.go` is missing) -/

/-- The fixed directory of the temporary names (`DoExecScript` speaks of "some random path
in /tmp"). -/
def tempDir : String := "/tmp"

/-- Modelled from the spec: the fixed prefix of the temporary names.  The spec says that
there is one and does not give its text; the model takes `tmp`, the prefix of the names
`/tmp/tmp0`, `/tmp/tmp1`, ... of `world0`. -/
def tempPrefix : String := "tmp"

/-- Modelled from the spec: the name that `GetTempFilename` (of `files.go`, missing) builds
on the random suffix it has drawn: fixed directory, fixed prefix, randomized suffix. -/
def tempName (suffix : String) : String :=
  tempDir ++ "/" ++ tempPrefix ++ suffix

/-- Modelled from the spec: the generator behind `GetTempFilename`: its `i`-th call fails or
draws a random suffix, and gives the name built on it. -/
def tempNames (random : Nat → Except String String) : Nat → Except String String := fun i =>
  match random i with
  | Except.error err => Except.error err
  | Except.ok suffix => Except.ok (tempName suffix)

/-- Modelled from the spec: a world in which the names that `GetTempFilename` returns are
those of the generator, for the source of randomness `random`. -/
def withGenerator (random : Nat → Except String String) (w : World) : World :=
  { w with temps := tempNames random }

/-- Modelled from the spec: `IsTempFilename` (of `files.go`, missing), the recognizer that
goes with the generator: a path is a temporary name when it starts with the fixed
directory and the fixed prefix. -/
def IsTempFilename (filename : String) : Bool :=
  (tempDir ++ "/" ++ tempPrefix).data.isPrefixOf filename.data

/-! ## `pkg/common/kubeadm.go` -/

/-- The key of a YAML document, `schema.GroupVersionKind`. -/
structure GroupVersionKind where
  Group : String
  Version : String
  Kind : String
  deriving DecidableEq, Repr

/-- The part of `kubeadmapi.ClusterConfiguration` that the code handles: it is copied as a
whole. -/
structure ClusterConfiguration where
  content : String
  deriving DecidableEq, Repr

/-- The field `NodeRegistration` of a configuration. -/
structure NodeRegistrationOptions where
  Name : String
  deriving DecidableEq, Repr

/-- The part of `kubeadmapi.InitConfiguration` that the code reads and writes. -/
structure InitConfiguration where
  ClusterConfiguration : ClusterConfiguration
  NodeRegistration : NodeRegistrationOptions
  deriving DecidableEq, Repr

/-- The struct `kubeadmapi.BootstrapTokenDiscovery`. -/
structure BootstrapTokenDiscovery where
  APIServerEndpoint : String
  deriving DecidableEq, Repr

/-- The field `Discovery` of a join configuration; `BootstrapToken` is a pointer. -/
structure Discovery where
  BootstrapToken : Option BootstrapTokenDiscovery
  deriving DecidableEq, Repr

/-- The part of `kubeadmapi.JoinConfiguration` that the code reads and writes. -/
structure JoinConfiguration where
  NodeRegistration : NodeRegistrationOptions
  Discovery : Discovery
  deriving DecidableEq, Repr

/-- A decoded document, of Go type `runtime.Object`: a pointer (possibly nil, `none`) to one
of the three configurations, or a value of any other type. -/
inductive Object where
  | initConfiguration (p : Option InitConfiguration)
  | clusterConfiguration (p : Option ClusterConfiguration)
  | joinConfiguration (p : Option JoinConfiguration)
  | other
  deriving DecidableEq, Repr

/-- What a call comes to: the values it returns, or a run-time panic. -/
inductive Call (α : Type) where
  | ret (a : α)
  | panic
  deriving DecidableEq, Repr

/-- The functions of the kubeadm library and of the rest of the package that `kubeadm.go`
calls and that are not in the embedded sources.  `SplitYAMLDocuments` gives the
documents in the order in which the loop meets them; `DefaultInit` and `DefaultJoin` are
`kubeadmscheme.Scheme.Default` on a pointer to a configuration, which fills in the
defaults; the two marshalling functions receive the pointer as well. -/
structure Library where
  SplitYAMLDocuments : String → Except String (List (GroupVersionKind × String))
  UnmarshalFromYamlForCodecs : String → Except String Object
  FromTerraformSafeString : String → Except String String
  AddressWithPort : String → String
  DefaultInit : Option InitConfiguration → Call (Option InitConfiguration)
  DefaultJoin : Option JoinConfiguration → Call (Option JoinConfiguration)
  MarshalInitConfigurationToBytes : Option InitConfiguration → Call (Except String String)
  MarshalToYamlForCodecs : Option JoinConfiguration → Call (Except String String)

/-- The library test `GroupVersionKindsHasInitConfiguration`, on one key. -/
def GroupVersionKindsHasInitConfiguration (k : GroupVersionKind) : Bool :=
  k.Kind = "InitConfiguration"

/-- The library test `GroupVersionKindsHasClusterConfiguration`, on one key. -/
def GroupVersionKindsHasClusterConfiguration (k : GroupVersionKind) : Bool :=
  k.Kind = "ClusterConfiguration"

/-- The library test `GroupVersionKindsHasJoinConfiguration`, on one key. -/
def GroupVersionKindsHasJoinConfiguration (k : GroupVersionKind) : Bool :=
  k.Kind = "JoinConfiguration"

/-- The loop of `YAMLToInitConfig` over the documents that remain, with the values of
`initConfig` and `clusterConfig` so far, and what follows the loop.  The result is the
pair (configuration, error) that the function returns.  Where the type assertion fails
the code returns `nil, err` with an `err` that is nil at that point. -/
def initLoop (lib : Library) :
    List (GroupVersionKind × String) → Option InitConfiguration →
      Option ClusterConfiguration → Option InitConfiguration × Option String
  | [], initConfig, clusterConfig =>
    match initConfig, clusterConfig with
    | some ic, some cc => (some { ic with ClusterConfiguration := cc }, none)
    | _, _ => (initConfig, none)
  | (k, v) :: rest, initConfig, clusterConfig =>
    if GroupVersionKindsHasInitConfiguration k then
      match lib.UnmarshalFromYamlForCodecs v with
      | Except.error err => (none, some err)
      | Except.ok (Object.initConfiguration (some cfg2)) =>
        initLoop lib rest (some cfg2) clusterConfig
      | Except.ok _ => (none, none)
    else if GroupVersionKindsHasClusterConfiguration k then
      match lib.UnmarshalFromYamlForCodecs v with
      | Except.error err => (none, some err)
      | Except.ok (Object.clusterConfiguration (some cfg2)) =>
        initLoop lib rest initConfig (some cfg2)
      | Except.ok _ => (none, none)
    else
      initLoop lib rest initConfig clusterConfig

/-- YAMLToInitConfig converts a YAML to InitConfiguration. -/
def YAMLToInitConfig (lib : Library) (configBytes : String) :
    Option InitConfiguration × Option String :=
  match lib.SplitYAMLDocuments configBytes with
  | Except.error err => (none, some err)
  | Except.ok objects => initLoop lib objects none none

/-- The loop of `YAMLToJoinConfig` over the documents that remain, with the value of
`joinConfig` so far, and the `return joinConfig, nil` that follows the loop. -/
def joinLoop (lib : Library) :
    List (GroupVersionKind × String) → Option JoinConfiguration →
      Option JoinConfiguration × Option String
  | [], joinConfig => (joinConfig, none)
  | (k, v) :: rest, joinConfig =>
    if GroupVersionKindsHasJoinConfiguration k then
      match lib.UnmarshalFromYamlForCodecs v with
      | Except.error err => (none, some err)
      | Except.ok (Object.joinConfiguration (some cfg2)) => joinLoop lib rest (some cfg2)
      | Except.ok _ => (none, none)
    else
      joinLoop lib rest joinConfig

/-- YAMLToJoinConfig converts a YAML to JoinConfiguration. -/
def YAMLToJoinConfig (lib : Library) (configBytes : String) :
    Option JoinConfiguration × Option String :=
  match lib.SplitYAMLDocuments configBytes with
  | Except.error err => (none, some err)
  | Except.ok objects => joinLoop lib objects none

/-- InitConfigToYAML converts a InitConfiguration to YAML.  The result is the configuration
with its defaults and the pair (bytes, error) returned, or a panic of the library. -/
def InitConfigToYAML (lib : Library) (initConfig : Option InitConfiguration) :
    Call (Option InitConfiguration × Except String String) :=
  match lib.DefaultInit initConfig with
  | Call.panic => Call.panic
  | Call.ret initConfig1 =>
    match lib.MarshalInitConfigurationToBytes initConfig1 with
    | Call.panic => Call.panic
    | Call.ret r => Call.ret (initConfig1, r)

/-- JoinConfigToYAML converts a JoinConfiguration to YAML.  The result is the configuration
with its defaults and the pair (bytes, error) returned, or a panic of the library. -/
def JoinConfigToYAML (lib : Library) (joinConfig : Option JoinConfiguration) :
    Call (Option JoinConfiguration × Except String String) :=
  match lib.DefaultJoin joinConfig with
  | Call.panic => Call.panic
  | Call.ret joinConfig1 =>
    match lib.MarshalToYamlForCodecs joinConfig1 with
    | Call.panic => Call.panic
    | Call.ret r => Call.ret (joinConfig1, r)

/-- The fields of the Terraform resource data that the code reads: `d.Get("join")`, and what
`d.GetOk` finds (`none` when it answers not ok) at `config.init`, `config.join` and
`nodename`. -/
structure ResourceData where
  join : String
  configInit : Option String
  configJoin : Option String
  nodename : Option String
  deriving DecidableEq, Repr

/-- The error `errNoInitConfigFound`. -/
def errNoInitConfigFound : String := "no init configuration obtained"

/-- The error `errNoJoinConfigFound`. -/
def errNoJoinConfigFound : String := "no join configuration obtained"

/-- InitConfigFromResourceData unmarshalls the initConfiguration passed from the kubeadm
`data` resource.  The result is the triple (configuration, bytes, error), or a panic:
the write to `initConfig.NodeRegistration.Name` dereferences `initConfig`. -/
def InitConfigFromResourceData (lib : Library) (d : ResourceData) :
    Call (Option InitConfiguration × Option String × Option String) :=
  match d.configInit with
  | none => Call.ret (none, none, some errNoInitConfigFound)
  | some cfg =>
    match lib.FromTerraformSafeString cfg with
    | Except.error err => Call.ret (none, none, some err)
    | Except.ok configBytes =>
      match YAMLToInitConfig lib configBytes with
      | (_, some err) => Call.ret (none, none, some err)
      | (initConfig, none) =>
        let written : Call (Option InitConfiguration) :=
          match d.nodename with
          | none => Call.ret initConfig
          | some nodenameOpt =>
            match initConfig with
            | none => Call.panic
            | some ic => Call.ret (some { ic with NodeRegistration := { Name := nodenameOpt } })
        match written with
        | Call.panic => Call.panic
        | Call.ret initConfig1 =>
          match InitConfigToYAML lib initConfig1 with
          | Call.panic => Call.panic
          | Call.ret (_, Except.error err) => Call.ret (none, none, some err)
          | Call.ret (initConfig2, Except.ok bytes) => Call.ret (initConfig2, some bytes, none)

/-- JoinConfigFromResourceData unmarshalls the joinConfiguration passed from the kubeadm
`data` resource.  The result is the triple (configuration, bytes, error), or a panic:
the write to `joinConfig.Discovery.BootstrapToken.APIServerEndpoint` dereferences
`joinConfig` and its `BootstrapToken`. -/
def JoinConfigFromResourceData (lib : Library) (d : ResourceData) :
    Call (Option JoinConfiguration × Option String × Option String) :=
  let seeder := d.join
  match d.configJoin with
  | none => Call.ret (none, none, some errNoJoinConfigFound)
  | some cfg =>
    match lib.FromTerraformSafeString cfg with
    | Except.error err => Call.ret (none, none, some err)
    | Except.ok configBytes =>
      match YAMLToJoinConfig lib configBytes with
      | (_, some err) => Call.ret (none, none, some err)
      | (none, none) => Call.panic
      | (some jc, none) =>
        match jc.Discovery.BootstrapToken with
        | none => Call.panic
        | some _ =>
          let jc1 : JoinConfiguration :=
            { jc with Discovery :=
              { BootstrapToken := some { APIServerEndpoint := lib.AddressWithPort seeder } } }
          let jc2 : JoinConfiguration :=
            match d.nodename with
            | none => jc1
            | some nodenameOpt => { jc1 with NodeRegistration := { Name := nodenameOpt } }
          match JoinConfigToYAML lib (some jc2) with
          | Call.panic => Call.panic
          | Call.ret (_, Except.error err) => Call.ret (none, none, some err)
          | Call.ret (joinConfig2, Except.ok bytes) => Call.ret (joinConfig2, some bytes, none)

/-- The key of a document of the given kind, in the version `v1beta1` of the kubeadm API. -/
def gvkOf (kind : String) : GroupVersionKind :=
  { Group := "kubeadm.k8s.io", Version := "v1beta1", Kind := kind }

/-- A library for which every YAML text holds the documents `docs`, every document decodes
to `obj`, and the other functions succeed. -/
def libOf (docs : List (GroupVersionKind × String)) (obj : Object) : Library :=
  { SplitYAMLDocuments := fun _ => Except.ok docs,
    UnmarshalFromYamlForCodecs := fun _ => Except.ok obj,
    FromTerraformSafeString := fun s => Except.ok s,
    AddressWithPort := fun s => s ++ ":6443",
    DefaultInit := fun c => Call.ret c,
    DefaultJoin := fun c => Call.ret c,
    MarshalInitConfigurationToBytes := fun _ => Call.ret (Except.ok "kind: InitConfiguration"),
    MarshalToYamlForCodecs := fun _ => Call.ret (Except.ok "kind: JoinConfiguration") }

/-! ## Observations on the history -/

/-- The command lines handed to the transport, in order. -/
def startedCommands : List Event → List String
  | [] => []
  | Event.start command :: rest => command :: startedCommands rest
  | _ :: rest => startedCommands rest

/-- The contents sent to remote files (bytes, or the name of a local file), in order. -/
def uploads : List Event → List String
  | [] => []
  | Event.upload content _ :: rest => content :: uploads rest
  | Event.uploadFile localPath _ :: rest => localPath :: uploads rest
  | _ :: rest => uploads rest

/-- Whether `path` is on the remote machine after the events, given that it was there or
not before (`present`): an upload to it creates it, a deletion of it removes it. -/
def remains (path : String) (present : Bool) : List Event → Bool
  | [] => present
  | Event.upload _ p :: rest => remains path (if p = path then true else present) rest
  | Event.uploadFile _ p :: rest => remains path (if p = path then true else present) rest
  | Event.delete p :: rest => remains path (if p = path then false else present) rest
  | _ :: rest => remains path present rest

/-! ## Concrete environments -/

/-- A transport on which every command starts, prints `lines` and ends as `wait`, and every
transfer and deletion succeeds. -/
def commOf (lines : List String) (wait : WaitResult) : Communicator :=
  { Start := fun _ _ => Except.ok { lines := lines, wait := wait },
    Upload := fun _ _ _ => none,
    UploadFile := fun _ _ _ => none,
    Delete := fun _ _ => none }

/-- A transport on which every command starts, prints nothing and exits with status `n`; the
exit error reports the command line as it was handed to the transport. -/
def commExit (n : Int) : Communicator :=
  { Start := fun _ command =>
      Except.ok { lines := [], wait := WaitResult.exitError command n none },
    Upload := fun _ _ _ => none,
    UploadFile := fun _ _ _ => none,
    Delete := fun _ _ => none }

/-- A transport on which no command starts. -/
def commDown : Communicator :=
  { Start := fun _ _ => Except.error "connection refused",
    Upload := fun _ _ _ => some "connection refused",
    UploadFile := fun _ _ _ => some "connection refused",
    Delete := fun _ _ => some "connection refused" }

/-- A configuration without sudo, its exec output going to the live sink. -/
def cfgOf (comm : Communicator) : Config :=
  { UseSudo := false, Comm := comm, ExecOutput := none }

/-- An environment whose file-existence checkers answer `found` without touching the remote
machine. -/
def depsOf (found : Bool) : Deps :=
  { escapeRune := fun r => String.singleton r,
    CheckFileExists := fun _ _ w => (CheckResult.value found none, w),
    CheckFileExistsOnce := fun _ _ w => (CheckResult.value found none, w) }

/-- An initial state of the world: nothing allocated, nothing done, and the temporary names
`/tmp/tmp0`, `/tmp/tmp1`, ... to come. -/
def world0 : World :=
  { vars := fun _ => "", nvars := 0, trace := [],
    temps := fun i => Except.ok ("/tmp/tmp" ++ toString i), ntemps := 0 }

/-! ## Definitions used to state the properties -/

/-- The command line that a new `DoExec(c)` hands to the transport the first time it is
applied. -/
def handed (cfg : Config) (c : String) : String :=
  (if cfg.UseSudo then "sudo " ++ sudoArgs ++ " " ++ c else c) ++ " 2>&1"

/-- The world after the command line `X` has been started and has printed `lines`. -/
def afterRun (cfg : Config) (X : String) (lines : List String) (w : World) : World :=
  lines.foldl (fun acc line => Output cfg.ExecOutput line acc) (w.log (Event.start X))

/-- The text has only printable ASCII characters, and neither a double quote nor a
backslash: the characters that `%q` writes unchanged. -/
def plainText (s : String) : Bool :=
  s.data.all (fun r => decide (0x20 ≤ r.toNat ∧ r.toNat ≤ 0x7E) && (r != '"' && r != '\\'))

/-- The text that a writer sink holds after the lines: each line followed by a newline. -/
def captured (lines : List String) : String :=
  lines.foldl (fun acc line => acc ++ line ++ "\n") ""

/-- The world after a checker has run `command` into a new buffer (at address `w.nvars`)
and the command has printed `lines`. -/
def captureWorld (cfg : Config) (command : String) (lines : List String) (w : World) : World :=
  afterRun { cfg with ExecOutput := some w.nvars } (handed cfg command) lines
    (((w.newVar "").2.newVar command).2.setVar (w.nvars + 1) (handed cfg command))

/-- The result that the value returned by `Wait` gives to `DoExec`. -/
def waitOutcome (deps : Deps) : WaitResult → Result
  | WaitResult.nil => Result.nil
  | WaitResult.exitError cmdText n _ =>
    if n ≠ 0 then
      Result.error ("Command " ++ fmtQ deps cmdText ++
        " exited with non-zero exit status: " ++ fmtD n)
    else Result.nil
  | WaitResult.other _ => Result.panic

/-- The events by which the lines of a command reach the live sink (none when the exec
output goes to a writer). -/
def emitted (cfg : Config) (lines : List String) : List Event :=
  match cfg.ExecOutput with
  | none => lines.map Event.output
  | some _ => []


/-! ## Lemmas on strings -/

theorem length_eq_zero_iff (s : String) : s.length = 0 ↔ s = "" := by
  constructor
  · intro h
    have h1 : s.data = [] := List.length_eq_zero.mp h
    exact String.ext h1
  · intro h
    subst h
    rfl

theorem containsChars_iff (sub : List Char) (l : List Char) :
    containsChars sub l = true ↔ sub <:+: l := by
  induction l with
  | nil =>
    cases sub with
    | nil => simp [containsChars]
    | cons a t => simp [containsChars]
  | cons c cs ih =>
    rw [containsChars, Bool.or_eq_true, ih, List.infix_cons_iff, List.isPrefixOf_iff_prefix]

theorem Contains_iff (s : String) (substr : String) :
    Contains s substr = true ↔ substr.data <:+: s.data := by
  unfold Contains
  exact containsChars_iff _ _

theorem Contains_append_right (a : String) (b : String) : Contains (a ++ b) b = true := by
  rw [Contains_iff]
  exact ⟨a.data, [], by simp⟩

theorem handed_sudo (cfg : Config) (c : String) (h : cfg.UseSudo = true) :
    handed cfg c = "sudo --non-interactive " ++ c ++ " 2>&1" := by
  unfold handed
  rw [if_pos h]
  rfl

theorem handed_plain (cfg : Config) (c : String) (h : cfg.UseSudo = false) :
    handed cfg c = c ++ " 2>&1" := by
  unfold handed
  simp [h]

/-! ## Lemmas on the world -/

theorem setVar_setVar (w : World) (i : Nat) (a : String) (b : String) :
    (w.setVar i a).setVar i b = w.setVar i b := by
  unfold World.setVar
  simp only [World.mk.injEq, and_true, true_and]
  funext j
  by_cases h : j = i <;> simp [h]

theorem DoExecBody_empty (deps : Deps) (v : Nat) (cfg : Config) (w : World)
    (h : w.vars v = "") : DoExecBody deps v cfg w = (some nilAction, w) := by
  unfold DoExecBody
  rw [if_pos ((length_eq_zero_iff _).mpr h)]

theorem DoExecBody_nonempty (deps : Deps) (v : Nat) (cfg : Config) (w : World)
    (h : w.vars v ≠ "") :
    DoExecBody deps v cfg w =
      runCommand deps (handed cfg (w.vars v)) cfg (w.setVar v (handed cfg (w.vars v))) := by
  unfold DoExecBody
  rw [if_neg (fun h0 => h ((length_eq_zero_iff _).mp h0))]
  unfold handed
  cases hs : cfg.UseSudo
  · simp [World.setVar]
  · simp only [if_true, setVar_setVar]
    simp [World.setVar]

/-! ## Properties of `DoExec` -/

theorem DoExec_fst (deps : Deps) (c : String) (w : World) :
    (DoExec deps c w).1 = ActionFunc (DoExecBody deps w.nvars) := rfl

theorem DoExec_snd (deps : Deps) (c : String) (w : World) :
    (DoExec deps c w).2 = (w.newVar c).2 := rfl

theorem DoExec_first (deps : Deps) (c : String) (cfg : Config) (w : World) (hc : c ≠ "") :
    (DoExec deps c w).1 cfg (DoExec deps c w).2 =
      ActionFunc (runCommand deps (handed cfg c)) cfg
        ((w.newVar c).2.setVar w.nvars (handed cfg c)) := by
  have hv : (w.newVar c).2.vars w.nvars = c := by simp [World.newVar]
  rw [DoExec_fst, DoExec_snd]
  unfold ActionFunc
  rw [DoExecBody_nonempty deps w.nvars cfg _ (by rw [hv]; exact hc), hv]

theorem startedCommands_append (t : List Event) (u : List Event) :
    startedCommands (t ++ u) = startedCommands t ++ startedCommands u := by
  induction t with
  | nil => rfl
  | cons e t ih => cases e <;> simp [startedCommands, ih]

theorem startedCommands_Output (sink : Option Nat) (lines : List String) (w : World) :
    startedCommands (lines.foldl (fun acc line => Output sink line acc) w).trace =
      startedCommands w.trace := by
  induction lines generalizing w with
  | nil => rfl
  | cons l ls ih =>
    rw [List.foldl_cons, ih]
    cases sink with
    | none => simp [Output, World.log, startedCommands_append, startedCommands]
    | some b => rfl

theorem runCommand_error (deps : Deps) (X : String) (cfg : Config) (w : World) (err : String)
    (h : cfg.Comm.Start w.trace X = Except.error err) :
    ActionFunc (runCommand deps X) cfg w =
      (Result.error ("Error executing command " ++ fmtQ deps X ++ ": " ++ err),
        w.log (Event.start X)) := by
  unfold ActionFunc runCommand
  rw [h]
  rfl

theorem runCommand_nil (deps : Deps) (X : String) (cfg : Config) (w : World)
    (lines : List String)
    (h : cfg.Comm.Start w.trace X = Except.ok { lines := lines, wait := WaitResult.nil }) :
    ActionFunc (runCommand deps X) cfg w = (Result.nil, afterRun cfg X lines w) := by
  unfold ActionFunc runCommand
  rw [h]
  rfl

theorem runCommand_exit (deps : Deps) (X : String) (cfg : Config) (w : World)
    (lines : List String) (cmdText : String) (n : Int) (e : Option String)
    (h : cfg.Comm.Start w.trace X =
      Except.ok { lines := lines, wait := WaitResult.exitError cmdText n e }) :
    ActionFunc (runCommand deps X) cfg w =
      (if n ≠ 0 then
        Result.error ("Command " ++ fmtQ deps cmdText ++
          " exited with non-zero exit status: " ++ fmtD n)
       else Result.nil, afterRun cfg X lines w) := by
  unfold ActionFunc runCommand
  rw [h]
  by_cases hn : n = 0
  · simp [hn, nilAction, afterRun]
  · simp [hn, ActionError, afterRun]

theorem runCommand_other (deps : Deps) (X : String) (cfg : Config) (w : World)
    (lines : List String) (m : String)
    (h : cfg.Comm.Start w.trace X =
      Except.ok { lines := lines, wait := WaitResult.other m }) :
    ActionFunc (runCommand deps X) cfg w = (Result.panic, afterRun cfg X lines w) := by
  unfold ActionFunc runCommand
  rw [h]
  rfl

theorem afterRun_started (cfg : Config) (X : String) (lines : List String) (w : World) :
    startedCommands (afterRun cfg X lines w).trace = startedCommands w.trace ++ [X] := by
  unfold afterRun
  rw [startedCommands_Output]
  simp [World.log, startedCommands_append, startedCommands]

theorem runCommand_started (deps : Deps) (X : String) (cfg : Config) (w : World) :
    startedCommands (ActionFunc (runCommand deps X) cfg w).2.trace =
      startedCommands w.trace ++ [X] := by
  cases hs : cfg.Comm.Start w.trace X with
  | error err =>
    rw [runCommand_error deps X cfg w err hs]
    simp [World.log, startedCommands_append, startedCommands]
  | ok proc =>
    obtain ⟨lines, wait⟩ := proc
    cases wait with
    | nil => rw [runCommand_nil deps X cfg w lines hs]; exact afterRun_started cfg X lines w
    | other m =>
      rw [runCommand_other deps X cfg w lines m hs]; exact afterRun_started cfg X lines w
    | exitError cmdText n e =>
      rw [runCommand_exit deps X cfg w lines cmdText n e hs]
      exact afterRun_started cfg X lines w

theorem quoteRune_plain (deps : Deps) (r : Char)
    (h : (decide (0x20 ≤ r.toNat ∧ r.toNat ≤ 0x7E) && (r != '"' && r != '\\')) = true) :
    quoteRune deps r = String.singleton r := by
  simp only [Bool.and_eq_true, decide_eq_true_eq, bne_iff_ne, ne_eq] at h
  obtain ⟨h1, h2, h3⟩ := h
  unfold quoteRune
  rw [if_neg (by simp [h2, h3]), if_pos h1]

theorem quote_plain_chars (deps : Deps) (l : List Char)
    (h : l.all (fun r => decide (0x20 ≤ r.toNat ∧ r.toNat ≤ 0x7E) && (r != '"' && r != '\\'))
      = true) :
    ((l.map (quoteRune deps)).map String.data).flatten = l := by
  induction l with
  | nil => rfl
  | cons r rs ih =>
    rw [List.all_cons, Bool.and_eq_true] at h
    rw [List.map_cons, List.map_cons, List.flatten_cons, ih h.2, quoteRune_plain deps r h.1]
    rfl

theorem fmtQ_plain (deps : Deps) (s : String) (h : plainText s = true) :
    fmtQ deps s = "\"" ++ s ++ "\"" := by
  unfold fmtQ
  congr 2
  apply String.ext
  rw [String.data_join]
  exact quote_plain_chars deps s.data h

/-- Claim C1, as the code has it.  A new `DoExec(c)` with `c` non-empty is applied, the
transport starts the command and `Wait` returns a value `wait`.  If `wait` is an exit
error with command text `cmdText` and a status `n` other than 0, the result is the Error
`Command <q> exited with non-zero exit status: <n>`, where `<q>` is `cmdText` as `%q`
writes it; this message contains `<q>` and the decimal `n`, and it contains `cmdText`
itself when `cmdText` has only printable ASCII characters other than the double quote
and the backslash.  If `wait` is no error, the result is success. -/
theorem DoExec_exit_status (deps : Deps) (c : String) (cfg : Config) (w : World)
    (lines : List String) (wait : WaitResult) (hc : c ≠ "")
    (hstart : cfg.Comm.Start w.trace (handed cfg c) =
      Except.ok { lines := lines, wait := wait }) :
    (∀ cmdText n e, wait = WaitResult.exitError cmdText n e → n ≠ 0 →
      ((DoExec deps c w).1 cfg (DoExec deps c w).2).1 =
          Result.error ("Command " ++ fmtQ deps cmdText ++
            " exited with non-zero exit status: " ++ fmtD n) ∧
        Contains ("Command " ++ fmtQ deps cmdText ++
            " exited with non-zero exit status: " ++ fmtD n) (fmtQ deps cmdText) = true ∧
        Contains ("Command " ++ fmtQ deps cmdText ++
            " exited with non-zero exit status: " ++ fmtD n) (fmtD n) = true ∧
        (plainText cmdText = true →
          Contains ("Command " ++ fmtQ deps cmdText ++
            " exited with non-zero exit status: " ++ fmtD n) cmdText = true)) ∧
    (wait = WaitResult.nil →
      ((DoExec deps c w).1 cfg (DoExec deps c w).2).1 = Result.nil) := by
  rw [DoExec_first deps c cfg w hc]
  constructor
  · intro cmdText n e hw hn
    subst hw
    refine ⟨?_, ?_, ?_, ?_⟩
    · rw [runCommand_exit deps (handed cfg c) cfg ((w.newVar c).2.setVar w.nvars (handed cfg c)) lines cmdText n e hstart]
      simp [hn]
    · rw [Contains_iff]
      exact ⟨"Command ".data, (" exited with non-zero exit status: " ++ fmtD n).data,
        by simp [String.data_append]⟩
    · exact Contains_append_right _ _
    · intro hp
      rw [fmtQ_plain deps cmdText hp, Contains_iff]
      exact ⟨("Command " ++ "\"").data,
        ("\"" ++ " exited with non-zero exit status: " ++ fmtD n).data,
        by simp [String.data_append]⟩
  · intro hw
    subst hw
    rw [runCommand_nil deps (handed cfg c) cfg ((w.newVar c).2.setVar w.nvars (handed cfg c)) lines hstart]

/-- Witness of `DoExec_exit_status`: `ls` exits with status 2. -/
theorem DoExec_exit_status_witness :
    ((DoExec (depsOf true) "ls" world0).1 (cfgOf (commExit 2))
        (DoExec (depsOf true) "ls" world0).2).1 =
      Result.error ("Command " ++ fmtQ (depsOf true) "ls 2>&1" ++
        " exited with non-zero exit status: " ++ fmtD 2) :=
  ((DoExec_exit_status (depsOf true) "ls" (cfgOf (commExit 2)) world0 []
    (WaitResult.exitError "ls 2>&1" 2 none) (by decide) rfl).1
      "ls 2>&1" 2 none rfl (by decide)).1

/-- Claim C1 as stated fails: the command `echo "x"` exits with status 1, the exit error
reports the command line `echo "x" 2>&1`, and the message of the Error does not contain
that text, because `%q` puts a backslash before each double quote. -/
theorem DoExec_message_lacks_command :
    ((DoExec (depsOf true) "echo \"x\"" world0).1 (cfgOf (commExit 1))
        (DoExec (depsOf true) "echo \"x\"" world0).2).1 =
      Result.error "Command \"echo \\\"x\\\" 2>&1\" exited with non-zero exit status: 1" ∧
    Contains "Command \"echo \\\"x\\\" 2>&1\" exited with non-zero exit status: 1"
      "echo \"x\" 2>&1" = false := by
  constructor
  · rfl
  · decide

/-- Claim C2 on the code.  A new `DoExec(c)` with `c` non-empty is applied.  When `Start`
returns an error the result is an Error.  When `Wait` returns an error that is not an
exit error, the application panics; when it returns an exit error whose status is 0
(the form in which the transport library reports its own failures), the result is
success. -/
theorem DoExec_transport_failure (deps : Deps) (c : String) (cfg : Config) (w : World)
    (hc : c ≠ "") :
    (∀ err, cfg.Comm.Start w.trace (handed cfg c) = Except.error err →
      ((DoExec deps c w).1 cfg (DoExec deps c w).2).1 =
        Result.error ("Error executing command " ++ fmtQ deps (handed cfg c) ++ ": " ++ err)) ∧
    (∀ lines m, cfg.Comm.Start w.trace (handed cfg c) =
        Except.ok { lines := lines, wait := WaitResult.other m } →
      ((DoExec deps c w).1 cfg (DoExec deps c w).2).1 = Result.panic) ∧
    (∀ lines cmdText e, cfg.Comm.Start w.trace (handed cfg c) =
        Except.ok { lines := lines, wait := WaitResult.exitError cmdText 0 (some e) } →
      ((DoExec deps c w).1 cfg (DoExec deps c w).2).1 = Result.nil) := by
  rw [DoExec_first deps c cfg w hc]
  refine ⟨?_, ?_, ?_⟩
  · intro err h
    rw [runCommand_error deps (handed cfg c) cfg ((w.newVar c).2.setVar w.nvars (handed cfg c)) err h]
  · intro lines m h
    rw [runCommand_other deps (handed cfg c) cfg ((w.newVar c).2.setVar w.nvars (handed cfg c)) lines m h]
  · intro lines cmdText e h
    rw [runCommand_exit deps (handed cfg c) cfg ((w.newVar c).2.setVar w.nvars (handed cfg c)) lines cmdText 0 (some e) h]
    simp

/-- Witness of `DoExec_transport_failure`: the connection is lost while `ls` runs, `Wait`
returns an error that is not an exit error, and the application panics. -/
theorem DoExec_transport_failure_witness :
    ((DoExec (depsOf true) "ls" world0).1
        (cfgOf (commOf [] (WaitResult.other "connection lost")))
        (DoExec (depsOf true) "ls" world0).2).1 = Result.panic :=
  (DoExec_transport_failure (depsOf true) "ls"
    (cfgOf (commOf [] (WaitResult.other "connection lost"))) world0 (by decide)).2.1
      [] "connection lost" rfl

/-- Claim C3.  The first time a new `DoExec(c)` with `c` non-empty is applied, exactly one
command line is handed to the transport: `sudo --non-interactive c 2>&1` when the
configuration has sudo enabled, and `c 2>&1` when it does not. -/
theorem DoExec_command_line (deps : Deps) (c : String) (cfg : Config) (w : World)
    (hc : c ≠ "") :
    startedCommands ((DoExec deps c w).1 cfg (DoExec deps c w).2).2.trace =
      startedCommands w.trace ++
        [if cfg.UseSudo = true then "sudo --non-interactive " ++ c ++ " 2>&1"
         else c ++ " 2>&1"] := by
  rw [DoExec_first deps c cfg w hc, runCommand_started]
  cases hs : cfg.UseSudo
  · rw [handed_plain cfg c hs]
    rfl
  · rw [handed_sudo cfg c hs]
    rfl

/-- Witness of `DoExec_command_line`: `ls` with sudo. -/
theorem DoExec_command_line_witness :
    startedCommands ((DoExec (depsOf true) "ls" world0).1
        { UseSudo := true, Comm := commOf [] WaitResult.nil, ExecOutput := none }
        (DoExec (depsOf true) "ls" world0).2).2.trace =
      startedCommands world0.trace ++
        [if true = true then "sudo --non-interactive " ++ "ls" ++ " 2>&1"
         else "ls" ++ " 2>&1"] :=
  DoExec_command_line (depsOf true) "ls"
    { UseSudo := true, Comm := commOf [] WaitResult.nil, ExecOutput := none } world0
    (by decide)

/-- Claim C4.  Applying `DoExec("")` is a success that leaves the world as it was: no
command is handed to the transport and no line is given to the output sink; building
the action does not touch the history either. -/
theorem DoExec_empty (deps : Deps) (cfg : Config) (w : World) :
    (DoExec deps "" w).1 cfg (DoExec deps "" w).2 = (Result.nil, (DoExec deps "" w).2) ∧
    (DoExec deps "" w).2.trace = w.trace ∧
    ∀ b, b ≠ w.nvars → (DoExec deps "" w).2.vars b = w.vars b := by
  refine ⟨?_, rfl, ?_⟩
  · rw [DoExec_fst, DoExec_snd]
    unfold ActionFunc
    rw [DoExecBody_empty deps w.nvars cfg _ (by simp [World.newVar])]
    rfl
  · intro b hb
    simp [DoExec_snd, World.newVar, hb]

theorem Output_buffer (b : Nat) (lines : List String) (w : World) :
    (lines.foldl (fun acc line => Output (some b) line acc) w).vars b =
      lines.foldl (fun acc line => acc ++ line ++ "\n") (w.vars b) := by
  induction lines generalizing w with
  | nil => rfl
  | cons l ls ih =>
    rw [List.foldl_cons, ih, List.foldl_cons]
    simp [Output, World.setVar]

theorem captureWorld_buffer (cfg : Config) (command : String) (lines : List String)
    (w : World) : (captureWorld cfg command lines w).vars w.nvars = captured lines := by
  unfold captureWorld afterRun captured
  rw [Output_buffer]
  simp [World.log, World.setVar, World.newVar]

theorem capture_eq (deps : Deps) (command : String) (cfg : Config) (w : World)
    (hc : command ≠ "") :
    DoSendingExecOutputToWriter w.nvars (DoExec deps command (w.newVar "").2).1 cfg
        (DoExec deps command (w.newVar "").2).2 =
      ActionFunc (runCommand deps (handed cfg command)) { cfg with ExecOutput := some w.nvars }
        (((w.newVar "").2.newVar command).2.setVar (w.nvars + 1) (handed cfg command)) := by
  unfold DoSendingExecOutputToWriter
  exact DoExec_first deps command { cfg with ExecOutput := some w.nvars } (w.newVar "").2 hc

theorem capture_ok (deps : Deps) (command : String) (cfg : Config) (w : World)
    (lines : List String) (wait : WaitResult) (hc : command ≠ "")
    (hstart : cfg.Comm.Start w.trace (handed cfg command) =
      Except.ok { lines := lines, wait := wait })
    (hok : wait = WaitResult.nil ∨ ∃ t e, wait = WaitResult.exitError t 0 e) :
    DoSendingExecOutputToWriter w.nvars (DoExec deps command (w.newVar "").2).1 cfg
        (DoExec deps command (w.newVar "").2).2 =
      (Result.nil, captureWorld cfg command lines w) := by
  rw [capture_eq deps command cfg w hc]
  rcases hok with h | ⟨t, e, h⟩
  · subst h
    exact runCommand_nil deps (handed cfg command) { cfg with ExecOutput := some w.nvars }
      (((w.newVar "").2.newVar command).2.setVar (w.nvars + 1) (handed cfg command))
      lines hstart
  · subst h
    rw [runCommand_exit deps (handed cfg command) { cfg with ExecOutput := some w.nvars }
      (((w.newVar "").2.newVar command).2.setVar (w.nvars + 1) (handed cfg command))
      lines t 0 e hstart]
    simp [captureWorld]

theorem checkExecCommand_ne (cmd : String) : checkExecCommand cmd ≠ "" := by
  intro h
  have h1 := congrArg String.length h
  simp [checkExecCommand, String.length_append] at h1
  exact absurd h1.2 (by decide)

theorem binaryExistsCommand_ne (cmd : String) : binaryExistsCommand cmd ≠ "" := by
  intro h
  have h1 := congrArg String.length h
  simp [binaryExistsCommand, String.length_append] at h1
  exact absurd h1.2 (by decide)

theorem CheckExec_eq (deps : Deps) (cmd : String) (cfg : Config) (w : World) :
    CheckExec deps cmd cfg w =
      match DoSendingExecOutputToWriter w.nvars
          (DoExec deps (checkExecCommand cmd) (w.newVar "").2).1 cfg
          (DoExec deps (checkExecCommand cmd) (w.newVar "").2).2 with
      | (Result.error msg, w3) => (CheckResult.value false (some msg), w3)
      | (Result.panic, w3) => (CheckResult.panic, w3)
      | (Result.nil, w3) =>
        if Contains (w3.vars w.nvars) success && !Contains (w3.vars w.nvars) failure then
          (CheckResult.value true none, w3)
        else
          (CheckResult.value false none, w3) := rfl

/-- Claim C5.  `CheckExec(cmd).Check` runs its command line into a buffer.  When the
transport starts it and the run ends without an Error (`Wait` returns no error, or an
exit error with status 0), the check returns true without error exactly when the
captured output contains `CONDITION_SUCCEEDED` and does not contain `CONDITION_FAILED`,
and false without error otherwise.  When the run is an Error (the command does not
start, or exits with a status other than 0), the check returns false with that error. -/
theorem CheckExec_decides (deps : Deps) (cmd : String) (cfg : Config) (w : World) :
    (∀ lines wait,
      cfg.Comm.Start w.trace (handed cfg (checkExecCommand cmd)) =
        Except.ok { lines := lines, wait := wait } →
      (wait = WaitResult.nil ∨ ∃ t e, wait = WaitResult.exitError t 0 e) →
      (CheckExec deps cmd cfg w).1 =
        CheckResult.value
          (decide ("CONDITION_SUCCEEDED".data <:+: (captured lines).data ∧
            ¬ "CONDITION_FAILED".data <:+: (captured lines).data)) none) ∧
    (∀ err,
      cfg.Comm.Start w.trace (handed cfg (checkExecCommand cmd)) = Except.error err →
      (CheckExec deps cmd cfg w).1 =
        CheckResult.value false (some ("Error executing command " ++
          fmtQ deps (handed cfg (checkExecCommand cmd)) ++ ": " ++ err))) ∧
    (∀ lines t n e,
      cfg.Comm.Start w.trace (handed cfg (checkExecCommand cmd)) =
        Except.ok { lines := lines, wait := WaitResult.exitError t n e } → n ≠ 0 →
      (CheckExec deps cmd cfg w).1 =
        CheckResult.value false (some ("Command " ++ fmtQ deps t ++
          " exited with non-zero exit status: " ++ fmtD n))) := by
  refine ⟨?_, ?_, ?_⟩
  · intro lines wait hstart hok
    have hrun := capture_ok deps (checkExecCommand cmd) cfg w lines wait
      (checkExecCommand_ne cmd) hstart hok
    have hdef : (CheckExec deps cmd cfg w).1 =
        (if Contains ((captureWorld cfg (checkExecCommand cmd) lines w).vars w.nvars) success
            && !Contains ((captureWorld cfg (checkExecCommand cmd) lines w).vars w.nvars) failure
          then CheckResult.value true none else CheckResult.value false none) := by
      rw [CheckExec_eq, hrun]
      simp only
      split <;> rfl
    rw [hdef, captureWorld_buffer]
    by_cases h1 : Contains (captured lines) success = true
    · by_cases h2 : Contains (captured lines) failure = true
      · have h2' := (Contains_iff _ _).mp h2
        simp only [h1, h2, Bool.not_true, Bool.and_false]
        have hf : failure.data = "CONDITION_FAILED".data := rfl
        rw [hf] at h2'
        simp [h2']
      · have h1' := (Contains_iff _ _).mp h1
        have h2' : ¬ failure.data <:+: (captured lines).data :=
          fun h => h2 ((Contains_iff _ _).mpr h)
        have hs : success.data = "CONDITION_SUCCEEDED".data := rfl
        have hf : failure.data = "CONDITION_FAILED".data := rfl
        rw [hs] at h1'
        rw [hf] at h2'
        simp only [Bool.not_eq_true] at h2
        simp [h1, h2, h1', h2']
    · have h1' : ¬ success.data <:+: (captured lines).data :=
        fun h => h1 ((Contains_iff _ _).mpr h)
      have hs : success.data = "CONDITION_SUCCEEDED".data := rfl
      rw [hs] at h1'
      simp only [Bool.not_eq_true] at h1
      simp [h1, h1']
  · intro err hstart
    rw [CheckExec_eq, capture_eq deps (checkExecCommand cmd) cfg w (checkExecCommand_ne cmd),
      runCommand_error deps (handed cfg (checkExecCommand cmd))
        { cfg with ExecOutput := some w.nvars }
        (((w.newVar "").2.newVar (checkExecCommand cmd)).2.setVar (w.nvars + 1)
          (handed cfg (checkExecCommand cmd))) err hstart]
  · intro lines t n e hstart hn
    rw [CheckExec_eq, capture_eq deps (checkExecCommand cmd) cfg w (checkExecCommand_ne cmd),
      runCommand_exit deps (handed cfg (checkExecCommand cmd))
        { cfg with ExecOutput := some w.nvars }
        (((w.newVar "").2.newVar (checkExecCommand cmd)).2.setVar (w.nvars + 1)
          (handed cfg (checkExecCommand cmd))) lines t n e hstart]
    simp [hn]

/-- Witness of `CheckExec_decides`: the remote shell prints `CONDITION_SUCCEEDED`. -/
theorem CheckExec_decides_witness :
    (CheckExec (depsOf true) "true"
        (cfgOf (commOf ["CONDITION_SUCCEEDED"] WaitResult.nil)) world0).1 =
      CheckResult.value
        (decide ("CONDITION_SUCCEEDED".data <:+: (captured ["CONDITION_SUCCEEDED"]).data ∧
          ¬ "CONDITION_FAILED".data <:+: (captured ["CONDITION_SUCCEEDED"]).data)) none :=
  (CheckExec_decides (depsOf true) "true"
    (cfgOf (commOf ["CONDITION_SUCCEEDED"] WaitResult.nil)) world0).1
      ["CONDITION_SUCCEEDED"] WaitResult.nil rfl (Or.inl rfl)

theorem CheckBinaryExists_eq (deps : Deps) (cmd : String) (cfg : Config) (w : World) :
    CheckBinaryExists deps cmd cfg w =
      match DoSendingExecOutputToWriter w.nvars
          (DoExec deps (binaryExistsCommand cmd) (w.newVar "").2).1 cfg
          (DoExec deps (binaryExistsCommand cmd) (w.newVar "").2).2 with
      | (Result.error msg, w3) => (CheckResult.value false (some msg), w3)
      | (Result.panic, w3) => (CheckResult.panic, w3)
      | (Result.nil, w3) =>
        if TrimSpace (w3.vars w.nvars) = "" then
          (CheckResult.value false none, w3)
        else if TrimSpace (w3.vars w.nvars) = cmd then
          (CheckResult.value true none, w3)
        else if IsAbs (TrimSpace (w3.vars w.nvars)) then
          deps.CheckFileExists (TrimSpace (w3.vars w.nvars)) cfg w3
        else
          (CheckResult.value false none, w3) := rfl

/-- Claim C6.  `CheckBinaryExists(cmd).Check` runs `command -v 'cmd'` into a buffer.  When
the run is successful and `s` is its captured output without the surrounding white
space, the check returns false if `s` is empty, true if `s` is `cmd`, what the remote
file-existence check on `s` returns if `s` is an absolute path, and false in every other
case; only the file-existence check can return an error. -/
theorem CheckBinaryExists_decides (deps : Deps) (cmd : String) (cfg : Config) (w : World)
    (lines : List String) (wait : WaitResult)
    (hstart : cfg.Comm.Start w.trace (handed cfg (binaryExistsCommand cmd)) =
      Except.ok { lines := lines, wait := wait })
    (hok : wait = WaitResult.nil ∨ ∃ t e, wait = WaitResult.exitError t 0 e) :
    CheckBinaryExists deps cmd cfg w =
      if TrimSpace (captured lines) = "" then
        (CheckResult.value false none, captureWorld cfg (binaryExistsCommand cmd) lines w)
      else if TrimSpace (captured lines) = cmd then
        (CheckResult.value true none, captureWorld cfg (binaryExistsCommand cmd) lines w)
      else if IsAbs (TrimSpace (captured lines)) = true then
        deps.CheckFileExists (TrimSpace (captured lines)) cfg
          (captureWorld cfg (binaryExistsCommand cmd) lines w)
      else
        (CheckResult.value false none, captureWorld cfg (binaryExistsCommand cmd) lines w) := by
  rw [CheckBinaryExists_eq,
    capture_ok deps (binaryExistsCommand cmd) cfg w lines wait (binaryExistsCommand_ne cmd)
      hstart hok]
  simp only [captureWorld_buffer]

/-- Witness of `CheckBinaryExists_decides`: `command -v 'foo'` prints `/usr/bin/foo`, an
absolute path, and the file-existence check on it answers true. -/
theorem CheckBinaryExists_decides_witness :
    (CheckBinaryExists (depsOf true) "foo" (cfgOf (commOf ["/usr/bin/foo"] WaitResult.nil))
        world0).1 = CheckResult.value true none := by
  rw [CheckBinaryExists_decides (depsOf true) "foo"
    (cfgOf (commOf ["/usr/bin/foo"] WaitResult.nil)) world0 ["/usr/bin/foo"] WaitResult.nil
    rfl (Or.inl rfl)]
  rfl

theorem runCommand_ok (deps : Deps) (X : String) (cfg : Config) (w : World)
    (lines : List String) (wait : WaitResult)
    (h : cfg.Comm.Start w.trace X = Except.ok { lines := lines, wait := wait }) :
    ActionFunc (runCommand deps X) cfg w = (waitOutcome deps wait, afterRun cfg X lines w) := by
  cases wait with
  | nil => exact runCommand_nil deps X cfg w lines h
  | other m => exact runCommand_other deps X cfg w lines m h
  | exitError t n e => exact runCommand_exit deps X cfg w lines t n e h

theorem Output_trace (sink : Option Nat) (lines : List String) (w : World) :
    (lines.foldl (fun acc line => Output sink line acc) w).trace =
      w.trace ++ (match sink with
        | none => lines.map Event.output
        | some _ => []) := by
  induction lines generalizing w with
  | nil => cases sink <;> simp
  | cons l ls ih =>
    rw [List.foldl_cons, ih]
    cases sink with
    | none => simp [Output, World.log]
    | some b => simp [Output, World.setVar]

theorem afterRun_trace (cfg : Config) (X : String) (lines : List String) (w : World) :
    (afterRun cfg X lines w).trace = w.trace ++ [Event.start X] ++ emitted cfg lines := by
  unfold afterRun emitted
  rw [Output_trace]
  rfl

theorem DoExecBody_apply (deps : Deps) (v : Nat) (c : String) (cfg : Config) (w : World)
    (hc : c ≠ "") (hv : w.vars v = c) :
    ActionFunc (DoExecBody deps v) cfg w =
      ActionFunc (runCommand deps (handed cfg c)) cfg (w.setVar v (handed cfg c)) := by
  unfold ActionFunc
  rw [DoExecBody_nonempty deps v cfg w (by rw [hv]; exact hc), hv]

theorem sh_ne (p : String) : "sh " ++ p ≠ "" := by
  intro h
  have h1 := congrArg String.length h
  simp [String.length_append] at h1
  exact absurd h1.1 (by decide)

theorem DoExecScript_eq (deps : Deps) (contents : String) (w : World) (p : String)
    (htemp : w.temps w.ntemps = Except.ok p) :
    DoExecScript deps contents w =
      (DoWithCleanup (ActionList [DoTry (DoDeleteFile p)])
        (ActionList [doRealUploadFile contents p, ActionFunc (DoExecBody deps w.nvars)]),
        ({ w with ntemps := w.ntemps + 1 }.newVar ("sh " ++ p)).2) := by
  unfold DoExecScript GetTempFilename
  rw [htemp]
  rfl

theorem cleanup_delete (p : String) (cfg : Config) (w : World) :
    ActionList [DoTry (DoDeleteFile p)] cfg w = (Result.nil, w.log (Event.delete p)) := by
  unfold ActionList DoTry DoDeleteFile
  cases h : cfg.Comm.Delete w.trace p <;> simp [ActionList]

theorem ActionList_single (a : Action) (cfg : Config) (w : World) :
    ActionList [a] cfg w = a cfg w := by
  unfold ActionList
  rcases h : a cfg w with ⟨r, w1⟩
  cases r <;> simp [ActionList]

theorem ActionList_cons_nil (a : Action) (rest : List Action) (cfg : Config) (w : World)
    (w1 : World) (h : a cfg w = (Result.nil, w1)) :
    ActionList (a :: rest) cfg w = ActionList rest cfg w1 := by
  simp only [ActionList, h]

theorem ActionList_cons_error (a : Action) (rest : List Action) (cfg : Config) (w : World)
    (w1 : World) (msg : String) (h : a cfg w = (Result.error msg, w1)) :
    ActionList (a :: rest) cfg w = (Result.error msg, w1) := by
  simp only [ActionList, h]

theorem DoWithCleanup_delete (p : String) (a : Action) (cfg : Config) (w : World) :
    DoWithCleanup (ActionList [DoTry (DoDeleteFile p)]) a cfg w =
      ((a cfg w).1, (a cfg w).2.log (Event.delete p)) := by
  unfold DoWithCleanup
  rcases h : a cfg w with ⟨r, w1⟩
  cases r <;> simp [cleanup_delete]

theorem doRealUploadFile_ok (contents : String) (p : String) (cfg : Config) (w : World)
    (h : cfg.Comm.Upload w.trace contents p = none) :
    doRealUploadFile contents p cfg w = (Result.nil, w.log (Event.upload contents p)) := by
  unfold doRealUploadFile
  rw [h]

theorem doRealUploadFile_fail (contents : String) (p : String) (cfg : Config) (w : World)
    (err : String) (h : cfg.Comm.Upload w.trace contents p = some err) :
    doRealUploadFile contents p cfg w =
      (Result.error err, w.log (Event.upload contents p)) := by
  unfold doRealUploadFile
  rw [h]

/-- Claim C7.  `DoExecScript` is built with a temporary path `p` and then applied.  The
contents are uploaded to `p`.  If the upload fails, nothing is executed, the deletion
of `p` is attempted and the result is the Error of the upload.  If it succeeds, `sh p` is
handed to the transport, the deletion of `p` is attempted after the command, and the
result is that of the command: its Error when it does not start or exits with a status
other than 0, success when `Wait` returns no error.  The outcome of the deletion is
nowhere in the result. -/
theorem DoExecScript_phases (deps : Deps) (contents : String) (cfg : Config) (w : World)
    (p : String) (htemp : w.temps w.ntemps = Except.ok p) :
    (∀ err, cfg.Comm.Upload w.trace contents p = some err →
      ((DoExecScript deps contents w).1 cfg (DoExecScript deps contents w).2).1 =
          Result.error err ∧
        ((DoExecScript deps contents w).1 cfg (DoExecScript deps contents w).2).2.trace =
          w.trace ++ [Event.upload contents p, Event.delete p]) ∧
    (∀ err, cfg.Comm.Upload w.trace contents p = none →
      cfg.Comm.Start (w.trace ++ [Event.upload contents p]) (handed cfg ("sh " ++ p)) =
        Except.error err →
      ((DoExecScript deps contents w).1 cfg (DoExecScript deps contents w).2).1 =
          Result.error ("Error executing command " ++ fmtQ deps (handed cfg ("sh " ++ p)) ++
            ": " ++ err) ∧
        ((DoExecScript deps contents w).1 cfg (DoExecScript deps contents w).2).2.trace =
          w.trace ++ [Event.upload contents p, Event.start (handed cfg ("sh " ++ p)),
            Event.delete p]) ∧
    (∀ lines wait, cfg.Comm.Upload w.trace contents p = none →
      cfg.Comm.Start (w.trace ++ [Event.upload contents p]) (handed cfg ("sh " ++ p)) =
        Except.ok { lines := lines, wait := wait } →
      ((DoExecScript deps contents w).1 cfg (DoExecScript deps contents w).2).1 =
          waitOutcome deps wait ∧
        ((DoExecScript deps contents w).1 cfg (DoExecScript deps contents w).2).2.trace =
          w.trace ++ [Event.upload contents p, Event.start (handed cfg ("sh " ++ p))] ++
            emitted cfg lines ++ [Event.delete p]) := by
  simp only [DoExecScript_eq deps contents w p htemp, DoWithCleanup_delete]
  obtain ⟨W, hW⟩ : ∃ W, W = ({ w with ntemps := w.ntemps + 1 }.newVar ("sh " ++ p)).2 :=
    ⟨_, rfl⟩
  rw [← hW]
  have htr : W.trace = w.trace := by rw [hW]; rfl
  have hv : W.vars w.nvars = "sh " ++ p := by rw [hW]; simp [World.newVar]
  have hexec := DoExecBody_apply deps w.nvars ("sh " ++ p) cfg
    (W.log (Event.upload contents p)) (sh_ne p) hv
  refine ⟨?_, ?_, ?_⟩
  · intro err hup
    rw [← htr] at hup
    rw [ActionList_cons_error (doRealUploadFile contents p) _ cfg W _ err
      (doRealUploadFile_fail contents p cfg W err hup)]
    simp [World.log, htr]
  · intro err hup hstart
    rw [← htr] at hup
    have hstart' : cfg.Comm.Start
        ((W.log (Event.upload contents p)).setVar w.nvars (handed cfg ("sh " ++ p))).trace
        (handed cfg ("sh " ++ p)) = Except.error err := by
      rw [← htr] at hstart
      exact hstart
    rw [ActionList_cons_nil (doRealUploadFile contents p) _ cfg W _
      (doRealUploadFile_ok contents p cfg W hup), ActionList_single, hexec,
      runCommand_error deps (handed cfg ("sh " ++ p)) cfg
        ((W.log (Event.upload contents p)).setVar w.nvars (handed cfg ("sh " ++ p)))
        err hstart']
    simp [World.log, World.setVar, htr]
  · intro lines wait hup hstart
    rw [← htr] at hup
    have hstart' : cfg.Comm.Start
        ((W.log (Event.upload contents p)).setVar w.nvars (handed cfg ("sh " ++ p))).trace
        (handed cfg ("sh " ++ p)) = Except.ok { lines := lines, wait := wait } := by
      rw [← htr] at hstart
      exact hstart
    rw [ActionList_cons_nil (doRealUploadFile contents p) _ cfg W _
      (doRealUploadFile_ok contents p cfg W hup), ActionList_single, hexec,
      runCommand_ok deps (handed cfg ("sh " ++ p)) cfg
        ((W.log (Event.upload contents p)).setVar w.nvars (handed cfg ("sh " ++ p)))
        lines wait hstart']
    simp [World.log, World.setVar, htr, afterRun_trace]

/-- Witness of `DoExecScript_phases`: the script is uploaded to `/tmp/tmp0` and run, and
the file is deleted. -/
theorem DoExecScript_phases_witness :
    ((DoExecScript (depsOf true) "echo hi" world0).1 (cfgOf (commOf ["hi"] WaitResult.nil))
        (DoExecScript (depsOf true) "echo hi" world0).2).1 = Result.nil ∧
    ((DoExecScript (depsOf true) "echo hi" world0).1 (cfgOf (commOf ["hi"] WaitResult.nil))
        (DoExecScript (depsOf true) "echo hi" world0).2).2.trace =
      [Event.upload "echo hi" "/tmp/tmp0", Event.start "sh /tmp/tmp0 2>&1", Event.output "hi",
        Event.delete "/tmp/tmp0"] :=
  (DoExecScript_phases (depsOf true) "echo hi" (cfgOf (commOf ["hi"] WaitResult.nil)) world0
    "/tmp/tmp0" rfl).2.2 ["hi"] WaitResult.nil rfl rfl

/-- Claim C8 on the code: no remote admin.conf, the kubeconfig `kc.yml`, temporary path
`/tmp/tmp0`.  `DoWithCleanup` receives the upload-then-kubectl list as its cleanup and
the Try-wrapped deletion as its main action, so in every attempt the deletion is applied
BEFORE the upload and the command, never after them, and the uploaded kubeconfig
remains on the remote machine: when everything succeeds (first part), and when kubectl
fails in each of the three attempts (second part). -/
theorem DoRemoteKubectl_deletes_before_upload :
    (((DoRemoteKubectl (depsOf false) "kubectl" "kc.yml" ["get", "nodes"] world0).1
        (cfgOf (commOf [] WaitResult.nil))
        (DoRemoteKubectl (depsOf false) "kubectl" "kc.yml" ["get", "nodes"] world0).2).1 =
        Result.nil ∧
      ((DoRemoteKubectl (depsOf false) "kubectl" "kc.yml" ["get", "nodes"] world0).1
        (cfgOf (commOf [] WaitResult.nil))
        (DoRemoteKubectl (depsOf false) "kubectl" "kc.yml" ["get", "nodes"] world0).2).2.trace =
        [Event.delete "/tmp/tmp0", Event.uploadFile "kc.yml" "/tmp/tmp0",
          Event.start "kubectl --kubeconfig=/tmp/tmp0 get nodes 2>&1"] ∧
      remains "/tmp/tmp0" false
        ((DoRemoteKubectl (depsOf false) "kubectl" "kc.yml" ["get", "nodes"] world0).1
          (cfgOf (commOf [] WaitResult.nil))
          (DoRemoteKubectl (depsOf false) "kubectl" "kc.yml" ["get", "nodes"] world0).2).2.trace
        = true) ∧
    (((DoRemoteKubectl (depsOf false) "kubectl" "kc.yml" ["get", "nodes"] world0).1
        (cfgOf (commExit 1))
        (DoRemoteKubectl (depsOf false) "kubectl" "kc.yml" ["get", "nodes"] world0).2).2.trace =
        [Event.delete "/tmp/tmp0", Event.uploadFile "kc.yml" "/tmp/tmp0",
          Event.start "kubectl --kubeconfig=/tmp/tmp0 get nodes 2>&1",
          Event.delete "/tmp/tmp0", Event.uploadFile "kc.yml" "/tmp/tmp0",
          Event.start "kubectl --kubeconfig=/tmp/tmp0 get nodes 2>&1 2>&1",
          Event.delete "/tmp/tmp0", Event.uploadFile "kc.yml" "/tmp/tmp0",
          Event.start "kubectl --kubeconfig=/tmp/tmp0 get nodes 2>&1 2>&1 2>&1"] ∧
      remains "/tmp/tmp0" false
        ((DoRemoteKubectl (depsOf false) "kubectl" "kc.yml" ["get", "nodes"] world0).1
          (cfgOf (commExit 1))
          (DoRemoteKubectl (depsOf false) "kubectl" "kc.yml" ["get", "nodes"] world0).2).2.trace
        = true) := by
  refine ⟨⟨?_, ?_, ?_⟩, ?_, ?_⟩ <;> rfl

/-- Claim C9 on the code: the closure of `DoExec` assigns its captured variable `command`,
so the same action hands a longer command line to the transport each time it is applied:
`ls` applied twice, `ls` under `DoRetry` with three attempts that fail, and `ls` applied
twice with sudo. -/
theorem DoExec_applied_again :
    startedCommands
        ((DoExec (depsOf true) "ls" world0).1 (cfgOf (commOf [] WaitResult.nil))
          ((DoExec (depsOf true) "ls" world0).1 (cfgOf (commOf [] WaitResult.nil))
            (DoExec (depsOf true) "ls" world0).2).2).2.trace =
      ["ls 2>&1", "ls 2>&1 2>&1"] ∧
    startedCommands
        (DoRetry 3 (DoExec (depsOf true) "ls" world0).1 (cfgOf (commExit 1))
          (DoExec (depsOf true) "ls" world0).2).2.trace =
      ["ls 2>&1", "ls 2>&1 2>&1", "ls 2>&1 2>&1 2>&1"] ∧
    startedCommands
        ((DoExec (depsOf true) "ls" world0).1
          { UseSudo := true, Comm := commOf [] WaitResult.nil, ExecOutput := none }
          ((DoExec (depsOf true) "ls" world0).1
            { UseSudo := true, Comm := commOf [] WaitResult.nil, ExecOutput := none }
            (DoExec (depsOf true) "ls" world0).2).2).2.trace =
      ["sudo --non-interactive ls 2>&1",
        "sudo --non-interactive sudo --non-interactive ls 2>&1 2>&1"] := by
  refine ⟨?_, ?_, ?_⟩ <;> rfl

/-- Claim C10 on the code: the closures built for inline and path manifests read the one
loop variable `manifest` when they are applied, after the loop has ended, so each of them
uploads what the LAST manifest of the list holds.  For two inline manifests `a` and `b`
both actions upload the bytes `b`; for a local file followed by a URL manifest the first
action uploads the local file with the empty name. -/
theorem DoRemoteKubectlApply_uploads_last :
    (DoRemoteKubectlApply (depsOf true) "kubectl" "kc.yml"
        [{ Path := "", URL := "", Inline := "a" }, { Path := "", URL := "", Inline := "b" }]
        world0).1.map
      (fun (a : Action) => uploads (a (cfgOf (commOf [] WaitResult.nil))
        (DoRemoteKubectlApply (depsOf true) "kubectl" "kc.yml"
          [{ Path := "", URL := "", Inline := "a" }, { Path := "", URL := "", Inline := "b" }]
          world0).2).2.trace) = [["b"], ["b"]] ∧
    (DoRemoteKubectlApply (depsOf true) "kubectl" "kc.yml"
        [{ Path := "a.yml", URL := "", Inline := "" },
          { Path := "", URL := "http://u/b.yml", Inline := "" }]
        world0).1.map
      (fun (a : Action) => (a (cfgOf (commOf [] WaitResult.nil))
        (DoRemoteKubectlApply (depsOf true) "kubectl" "kc.yml"
          [{ Path := "a.yml", URL := "", Inline := "" },
            { Path := "", URL := "http://u/b.yml", Inline := "" }]
          world0).2).2.trace) =
      [[Event.delete "/tmp/tmp0", Event.uploadFile "" "/tmp/tmp0",
          Event.start
            "kubectl --kubeconfig=/etc/kubernetes/admin.conf apply -f /tmp/tmp0 2>&1"],
        [Event.start
          "kubectl --kubeconfig=/etc/kubernetes/admin.conf apply -f http://u/b.yml 2>&1"]] := by
  refine ⟨?_, ?_⟩ <;> rfl

/-! ## Manifests -/

/-- Claim C11, as the code has it.  The manifest returned by `NewManifest(m)` holds `m` in
one of its three fields and the empty text in the two others: for every non-empty text
`m` exactly one of its fields is populated, and for the empty text none is. -/
theorem NewManifest_one_field (host : Host) (m : String) :
    (NewManifest host m).populated = (if m = "" then 0 else 1) ∧
    (NewManifest host m = { Path := "", URL := m, Inline := "" } ∨
      NewManifest host m = { Path := m, URL := "", Inline := "" } ∨
      NewManifest host m = { Path := "", URL := "", Inline := m }) := by
  unfold NewManifest
  by_cases hm : m = ""
  · by_cases h1 : isValidURL host m = true
    · simp [h1, Manifest.populated, hm]
    · by_cases h2 : LocalFileExists host m = true
      · simp [h1, h2, Manifest.populated, hm]
      · simp [h1, h2, Manifest.populated, hm]
  · by_cases h1 : isValidURL host m = true
    · simp [h1, Manifest.populated, hm]
    · by_cases h2 : LocalFileExists host m = true
      · simp [h1, h2, Manifest.populated, hm]
      · simp [h1, h2, Manifest.populated, hm]

/-- Claim C11 as stated fails: the manifest returned by `NewManifest("")` has none of its
three fields populated; it is the manifest that `IsEmpty` recognises. -/
theorem NewManifest_empty_text :
    NewManifest hostBare "" = { Path := "", URL := "", Inline := "" } ∧
    (NewManifest hostBare "").populated = 0 ∧
    (NewManifest hostBare "").IsEmpty = true := by
  refine ⟨?_, ?_, ?_⟩ <;> rfl

theorem populated_le_one (m : Manifest) (h : m.populated ≤ 1) :
    (m.Inline ≠ "" → m.Path = "" ∧ m.URL = "") ∧ (m.Path ≠ "" → m.URL = "") := by
  unfold Manifest.populated at h
  by_cases hi : m.Inline = "" <;> by_cases hp : m.Path = "" <;> by_cases hu : m.URL = "" <;>
    simp [hi, hp, hu] at h ⊢

/-- Claim C12, as the code has it.  The manifest has at most one non-empty field, as the
data model has it and as `NewManifest` builds it.  If the template replacement of that
field succeeds, `ReplaceConfig` returns without error; and whenever it returns without
error, each of Inline, Path and URL that was non-empty holds the template replacement of
its previous value, and each that was empty is still empty. -/
theorem ReplaceConfig_single_field {κ : Type}
    (ReplaceInTemplate : String → κ → Except String String) (m : Manifest) (config : κ)
    (hone : m.populated ≤ 1) :
    ((∀ text, text ≠ "" → (text = m.Inline ∨ text = m.Path ∨ text = m.URL) →
        ∃ r, ReplaceInTemplate text config = Except.ok r) →
      (Manifest.ReplaceConfig ReplaceInTemplate m config).1 = none) ∧
    ((Manifest.ReplaceConfig ReplaceInTemplate m config).1 = none →
      (m.Inline ≠ "" → ReplaceInTemplate m.Inline config =
          Except.ok (Manifest.ReplaceConfig ReplaceInTemplate m config).2.Inline) ∧
        (m.Path ≠ "" → ReplaceInTemplate m.Path config =
          Except.ok (Manifest.ReplaceConfig ReplaceInTemplate m config).2.Path) ∧
        (m.URL ≠ "" → ReplaceInTemplate m.URL config =
          Except.ok (Manifest.ReplaceConfig ReplaceInTemplate m config).2.URL) ∧
        (m.Inline = "" → (Manifest.ReplaceConfig ReplaceInTemplate m config).2.Inline = "") ∧
        (m.Path = "" → (Manifest.ReplaceConfig ReplaceInTemplate m config).2.Path = "") ∧
        (m.URL = "" → (Manifest.ReplaceConfig ReplaceInTemplate m config).2.URL = "")) := by
  obtain ⟨h1, h2⟩ := populated_le_one m hone
  by_cases hi : m.Inline = ""
  · by_cases hp : m.Path = ""
    · by_cases hu : m.URL = ""
      · simp [Manifest.ReplaceConfig, hi, hp, hu]
      · constructor
        · intro hR
          obtain ⟨r, hr⟩ := hR m.URL hu (Or.inr (Or.inr rfl))
          simp [Manifest.ReplaceConfig, hi, hp, hu, hr]
        · cases hr : ReplaceInTemplate m.URL config with
          | error err => simp [Manifest.ReplaceConfig, hi, hp, hu, hr]
          | ok r => simp [Manifest.ReplaceConfig, hi, hp, hu, hr]
    · have hu : m.URL = "" := h2 hp
      constructor
      · intro hR
        obtain ⟨r, hr⟩ := hR m.Path hp (Or.inr (Or.inl rfl))
        simp [Manifest.ReplaceConfig, hi, hp, hr]
      · cases hr : ReplaceInTemplate m.Path config with
        | error err => simp [Manifest.ReplaceConfig, hi, hp, hr]
        | ok r => simp [Manifest.ReplaceConfig, hi, hp, hu, hr]
  · obtain ⟨hp, hu⟩ := h1 hi
    constructor
    · intro hR
      obtain ⟨r, hr⟩ := hR m.Inline hi (Or.inl rfl)
      simp [Manifest.ReplaceConfig, hi, hr]
    · cases hr : ReplaceInTemplate m.Inline config with
      | error err => simp [Manifest.ReplaceConfig, hi, hr]
      | ok r => simp [Manifest.ReplaceConfig, hi, hp, hu, hr]

/-- Witness of `ReplaceConfig_single_field`: the manifest with the inline text
`kind: {{.ns}}` alone; the call returns without error. -/
theorem ReplaceConfig_single_field_witness :
    (Manifest.ReplaceConfig replaceNs
      { Path := "", URL := "", Inline := "kind: \x7b\x7b.ns\x7d\x7d" } "kube-system").1 = none :=
  (ReplaceConfig_single_field replaceNs
    { Path := "", URL := "", Inline := "kind: \x7b\x7b.ns\x7d\x7d" } "kube-system"
    (by decide)).1
    (fun text _ _ => by
      unfold replaceNs
      split
      · exact ⟨_, rfl⟩
      · split
        · exact ⟨_, rfl⟩
        · exact ⟨_, rfl⟩)

/-- Claim C12 as stated fails on a manifest with two non-empty fields: the `switch` of
`ReplaceConfig` stops at the first field that is not empty.  On the manifest with the
inline text `kind: {{.ns}}` and the path `{{.ns}}.yml` the call returns no error, the
inline text is replaced, and the path is left as it was although its replacement is
`kube-system.yml`. -/
theorem ReplaceConfig_first_field_only :
    Manifest.ReplaceConfig replaceNs
        { Path := "\x7b\x7b.ns\x7d\x7d.yml", URL := "", Inline := "kind: \x7b\x7b.ns\x7d\x7d" }
        "kube-system" =
      (none, { Path := "\x7b\x7b.ns\x7d\x7d.yml", URL := "", Inline := "kind: kube-system" }) ∧
    replaceNs "\x7b\x7b.ns\x7d\x7d.yml" "kube-system" = Except.ok "kube-system.yml" := by
  constructor <;> rfl

/-! ## Local commands -/

/-- Claim C13 on the code.  `DoLocalExec` is applied and the process ends with status
`status`.  When the exit code is not 0 and the runner reports an error, the result is
the Error with the text of that error.  When the exit code is not 0 and the runner
reports NO error, the application panics.  When the exit code is 0, the result is
success. -/
theorem DoLocalExec_exit_status (deps : Deps) (run : Runner) (command : String)
    (args : List String) (cfg : Config) (w : World) :
    (∀ err, (run (announced deps command args w) command args).status.Exit ≠ 0 →
      (run (announced deps command args w) command args).status.Error = some err →
      (DoLocalExec deps run command args cfg w).1 = Result.error err) ∧
    ((run (announced deps command args w) command args).status.Exit ≠ 0 →
      (run (announced deps command args w) command args).status.Error = none →
      (DoLocalExec deps run command args cfg w).1 = Result.panic) ∧
    ((run (announced deps command args w) command args).status.Exit = 0 →
      (DoLocalExec deps run command args cfg w).1 = Result.nil) := by
  refine ⟨?_, ?_, ?_⟩
  · intro err hexit herr
    simp only [DoLocalExec, ActionFunc, announced, World.log] at hexit herr ⊢
    simp [hexit, herr, ActionError]
  · intro hexit herr
    simp only [DoLocalExec, ActionFunc, announced, World.log] at hexit herr ⊢
    simp [hexit, herr]
  · intro hexit
    simp only [DoLocalExec, ActionFunc, announced, World.log] at hexit ⊢
    simp [hexit, nilAction]

/-- Witness of `DoLocalExec_exit_status`: the local command `false` exits with status 1 and
the runner reports no error; the application panics. -/
theorem DoLocalExec_exit_status_witness :
    (DoLocalExec (depsOf true) (runnerOf { Exit := 1, Error := none }) "false" []
      (cfgOf (commOf [] WaitResult.nil)) world0).1 = Result.panic :=
  (DoLocalExec_exit_status (depsOf true) (runnerOf { Exit := 1, Error := none }) "false" []
    (cfgOf (commOf [] WaitResult.nil)) world0).2.1 (by decide) rfl

/-! ## Temporary names -/

theorem IsTempFilename_tempName (suffix : String) :
    IsTempFilename (tempName suffix) = true := by
  unfold IsTempFilename tempName
  rw [List.isPrefixOf_iff_prefix, String.data_append]
  exact List.prefix_append _ _

theorem world0_generator : world0 = withGenerator (fun i => Except.ok (toString i)) world0 :=
  rfl

/-- Claim C14.  Whatever the source of randomness and the state of the world, every path
that `GetTempFilename` returns without error (a name built on the fixed directory, the
fixed prefix and the suffix drawn) is recognised by `IsTempFilename`; and
`/tmp/something.tmp`, which lies in the same directory, is not recognised. -/
theorem IsTempFilename_generated (random : Nat → Except String String) (w : World)
    (p : String) (hp : (GetTempFilename (withGenerator random w)).1 = Except.ok p) :
    IsTempFilename p = true ∧ IsTempFilename "/tmp/something.tmp" = false := by
  constructor
  · have h1 : tempNames random w.ntemps = Except.ok p := hp
    unfold tempNames at h1
    cases hr : random w.ntemps with
    | error err => rw [hr] at h1; cases h1
    | ok suffix =>
      rw [hr] at h1
      injection h1 with h2
      rw [← h2]
      exact IsTempFilename_tempName suffix
  · decide

/-- Witness of `IsTempFilename_generated`: the first name of `world0`, `/tmp/tmp0`. -/
theorem IsTempFilename_generated_witness :
    IsTempFilename "/tmp/tmp0" = true ∧ IsTempFilename "/tmp/something.tmp" = false :=
  IsTempFilename_generated (fun i => Except.ok (toString i)) world0 "/tmp/tmp0" rfl

/-! ## `kubeadm.go` -/

/-- Claim C15 on the code.  `YAMLToJoinConfig` and `YAMLToInitConfig` return a nil
configuration WITHOUT error when the YAML holds no document (first part) and when the
document of the wanted kind decodes to another type (second and third parts).  On such
a return `JoinConfigFromResourceData` panics at its write to `joinConfig` (fourth
part), and `InitConfigFromResourceData` panics at its write to `initConfig` when the
resource has a nodename (fifth part). -/
theorem YAMLToConfig_nil_without_error (lib : Library) (configBytes : String) :
    (lib.SplitYAMLDocuments configBytes = Except.ok [] →
      YAMLToJoinConfig lib configBytes = (none, none) ∧
        YAMLToInitConfig lib configBytes = (none, none)) ∧
    (∀ v, lib.SplitYAMLDocuments configBytes = Except.ok [(gvkOf "JoinConfiguration", v)] →
      lib.UnmarshalFromYamlForCodecs v = Except.ok Object.other →
      YAMLToJoinConfig lib configBytes = (none, none)) ∧
    (∀ v, lib.SplitYAMLDocuments configBytes = Except.ok [(gvkOf "InitConfiguration", v)] →
      lib.UnmarshalFromYamlForCodecs v = Except.ok Object.other →
      YAMLToInitConfig lib configBytes = (none, none)) ∧
    (∀ d cfg, d.configJoin = some cfg →
      lib.FromTerraformSafeString cfg = Except.ok configBytes →
      YAMLToJoinConfig lib configBytes = (none, none) →
      JoinConfigFromResourceData lib d = Call.panic) ∧
    (∀ d cfg name, d.configInit = some cfg → d.nodename = some name →
      lib.FromTerraformSafeString cfg = Except.ok configBytes →
      YAMLToInitConfig lib configBytes = (none, none) →
      InitConfigFromResourceData lib d = Call.panic) := by
  refine ⟨?_, ?_, ?_, ?_, ?_⟩
  · intro h
    simp [YAMLToJoinConfig, YAMLToInitConfig, h, joinLoop, initLoop]
  · intro v h hv
    simp [YAMLToJoinConfig, h, joinLoop, hv, gvkOf, GroupVersionKindsHasJoinConfiguration]
  · intro v h hv
    simp [YAMLToInitConfig, h, initLoop, hv, gvkOf, GroupVersionKindsHasInitConfiguration]
  · intro d cfg hd hs hy
    simp [JoinConfigFromResourceData, hd, hs, hy]
  · intro d cfg name hd hn hs hy
    simp [InitConfigFromResourceData, hd, hn, hs, hy]

/-- Witness of `YAMLToConfig_nil_without_error`: the YAML of the resource holds no document;
`YAMLToJoinConfig` returns nil without error and `JoinConfigFromResourceData` panics. -/
theorem YAMLToConfig_nil_without_error_witness :
    YAMLToJoinConfig (libOf [] Object.other) "" = (none, none) ∧
    JoinConfigFromResourceData (libOf [] Object.other)
      { join := "10.0.0.1", configInit := none, configJoin := some "", nodename := none } =
      Call.panic :=
  ⟨((YAMLToConfig_nil_without_error (libOf [] Object.other) "").1 rfl).1,
    (YAMLToConfig_nil_without_error (libOf [] Object.other) "").2.2.2.1
      { join := "10.0.0.1", configInit := none, configJoin := some "", nodename := none } ""
      rfl rfl rfl⟩

end Kubeadm
